import Mathlib

/-!
Verification development for the lol-wrapper repository.

The repository's core (rate-limited Riot API client, match-acquisition
pipeline and statistics aggregation) is embedded shallowly:

* `lol_wrapper/analytics.py` : `calculate_kda`, `analyze_match_history`,
  `analyze_temporal_patterns`, `filter_matches_by_year`;
* `lol_wrapper/client.py`    : `_wait_for_rate_limit`, `_make_request`;
* `lol_wrapper/server_http.py` : the match-ID pagination loop, the
  detail-fetch loop and the report assembly inside `get_player_wrapped`.

Python floats are modelled as rationals (`ℚ`); Python's `round(x, 2)`
(round-half-to-even) is `round2`; upstream I/O collaborators (HTTP pages,
match-detail fetches, `datetime.fromtimestamp`) are passed in as explicit
functions, so every definition stays executable.
-/

set_option maxHeartbeats 1000000
set_option maxRecDepth 8000

/-- Round-half-to-even to the nearest integer, the tie-breaking rule of
Python's builtin `round` (modelled on exact rationals). -/
def roundHalfEven (x : ℚ) : ℤ :=
  if x - (⌊x⌋ : ℚ) < 1/2 then ⌊x⌋
  else if 1/2 < x - (⌊x⌋ : ℚ) then ⌊x⌋ + 1
  else if ⌊x⌋ % 2 = 0 then ⌊x⌋ else ⌊x⌋ + 1

/-- Python's `round(x, 2)` on rationals. -/
def round2 (x : ℚ) : ℚ := (roundHalfEven (x * 100) : ℚ) / 100

/-- `analytics.calculate_kda`: `(kills+assists)/deaths` rounded to two
decimals, or the raw `kills+assists` when `deaths == 0`. -/
def calculate_kda (kills deaths assists : ℕ) : ℚ :=
  if deaths = 0 then ((kills : ℚ) + (assists : ℚ))
  else round2 (((kills : ℚ) + (assists : ℚ)) / (deaths : ℚ))

theorem roundHalfEven_nonneg {x : ℚ} (hx : 0 ≤ x) : 0 ≤ roundHalfEven x := by
  unfold roundHalfEven
  have hf : 0 ≤ ⌊x⌋ := by
    rw [Int.le_floor]
    exact_mod_cast hx
  split_ifs <;> omega

theorem roundHalfEven_le {x : ℚ} {n : ℤ} (h : x ≤ (n : ℚ)) : roundHalfEven x ≤ n := by
  unfold roundHalfEven
  have hf : ⌊x⌋ ≤ n := by
    calc ⌊x⌋ ≤ ⌊(n : ℚ)⌋ := Int.floor_le_floor h
    _ = n := Int.floor_intCast n
  have hfx : (⌊x⌋ : ℚ) ≤ x := Int.floor_le x
  split_ifs with h1 h2 h3
  · exact hf
  · -- here `1/2 < x - ⌊x⌋`, so `⌊x⌋ < n` in `ℚ`, hence `⌊x⌋ + 1 ≤ n`
    have : (⌊x⌋ : ℚ) < (n : ℚ) := by linarith
    have : ⌊x⌋ < n := by exact_mod_cast this
    omega
  · exact hf
  · have hr : (1 : ℚ)/2 ≤ x - (⌊x⌋ : ℚ) := le_of_not_lt h1
    have : (⌊x⌋ : ℚ) < (n : ℚ) := by linarith
    have : ⌊x⌋ < n := by exact_mod_cast this
    omega

theorem round2_nonneg {x : ℚ} (hx : 0 ≤ x) : 0 ≤ round2 x := by
  unfold round2
  have : (0 : ℤ) ≤ roundHalfEven (x * 100) := roundHalfEven_nonneg (by positivity)
  positivity

theorem round2_le_100 {x : ℚ} (hx : x ≤ 100) : round2 x ≤ 100 := by
  unfold round2
  have h1 : x * 100 ≤ ((10000 : ℤ) : ℚ) := by push_cast; linarith
  have h2 : roundHalfEven (x * 100) ≤ 10000 := roundHalfEven_le h1
  have h3 : (roundHalfEven (x * 100) : ℚ) ≤ 10000 := by exact_mod_cast h2
  linarith

theorem calculate_kda_nonneg (k d a : ℕ) : 0 ≤ calculate_kda k d a := by
  unfold calculate_kda
  split_ifs with h
  · positivity
  · exact round2_nonneg (by positivity)

/-! ### Match data model (`MatchRecord` shapes consumed by `analytics.py`) -/

/-- One participant entry of a match's `info.participants` list, with the
defaults that `analytics.py` applies via `dict.get` already folded in
(`kills`/`deaths`/`assists`/multi-kills default 0, `win`/`firstBloodKill`
default false, `championName` default "Unknown").  `teamPosition` and
`individualPosition` are `Option` because the code distinguishes presence
(`dict.get` with a fallback chain). -/
structure Participant where
  puuid : String
  win : Bool
  kills : ℕ
  deaths : ℕ
  assists : ℕ
  championName : String
  teamPosition : Option String
  individualPosition : Option String
  pentaKills : ℕ
  quadraKills : ℕ
  tripleKills : ℕ
  firstBloodKill : Bool
  totalDamageDealtToChampions : ℕ
deriving DecidableEq

/-- The `info` section of a match record.  `gameCreation` is epoch
milliseconds (`info.get("gameCreation", 0)`), `gameDuration` seconds. -/
structure MatchInfo where
  gameDuration : ℕ
  gameCreation : ℤ
  participants : List Participant
deriving DecidableEq

/-- A (possibly malformed) match record.  `info = none` models both a falsy
match and a match lacking an `"info"` key (`if not match or "info" not in
match`); `matchId` models `match.get("metadata", {}).get("matchId")`. -/
structure MatchRec where
  matchId : Option String
  info : Option MatchInfo
deriving DecidableEq

/-- The month-key/hour/weekday triple extracted from a timestamp.  Models the
result of `datetime.fromtimestamp(...)` followed by `strftime("%Y-%m")`,
`.hour` and `.weekday()`; the calendar function itself is an external
collaborator passed in as `dateFn`. -/
structure DateParts where
  monthKey : String
  hour : ℕ
  weekday : ℕ
deriving DecidableEq

/-- Per-champion accumulator (`champion_stats` defaultdict entry). -/
structure ChampAgg where
  games : ℕ
  wins : ℕ
  kills : ℕ
  deaths : ℕ
  assists : ℕ
deriving DecidableEq

/-- Per-month accumulator (`monthly_stats` defaultdict entry). -/
structure MonthAgg where
  games : ℕ
  wins : ℕ
  kills : ℕ
  deaths : ℕ
  assists : ℕ
  pentakills : ℕ
  quadrakills : ℕ
  triplekills : ℕ
deriving DecidableEq

/-- Per-hour / per-weekday accumulator (`hourly_stats` / `weekday_stats`). -/
structure HWAgg where
  games : ℕ
  wins : ℕ
deriving DecidableEq

/-- The `best_game` / `worst_game` summary dict.  `damage` is `some` only for
the best game (the worst-game dict has no `"damage"` key). -/
structure GameSummary where
  match_id : Option String
  champion : String
  kda : ℚ
  kills : ℕ
  deaths : ℕ
  assists : ℕ
  win : Bool
  damage : Option ℕ
deriving DecidableEq

/-- Python `dict`/`defaultdict`/`Counter` update as an insertion-ordered
association list: an existing key is updated in place, a missing key is
appended at the end with `f default`. -/
def updateAssoc {β : Type} (l : List (String × β)) (k : String) (d : β) (f : β → β) :
    List (String × β) :=
  match l with
  | [] => [(k, f d)]
  | (k1, v) :: rest =>
    if k1 = k then (k1, f v) :: rest else (k1, v) :: updateAssoc rest k d f

/-- `updateAssoc` for natural-number keys (hour / weekday dicts). -/
def updateAssocNat {β : Type} (l : List (ℕ × β)) (k : ℕ) (d : β) (f : β → β) :
    List (ℕ × β) :=
  match l with
  | [] => [(k, f d)]
  | (k1, v) :: rest =>
    if k1 = k then (k1, f v) :: rest else (k1, v) :: updateAssocNat rest k d f

/-- The mutable `stats` dict of `analyze_match_history` during the loop,
together with the two loop locals `best_kda` (initialised to `-1`) and
`worst_kda` (initialised to `float('inf')`, modelled as `none`). -/
structure AggState where
  total_games : ℕ
  wins : ℕ
  losses : ℕ
  total_kills : ℕ
  total_deaths : ℕ
  total_assists : ℕ
  total_playtime_minutes : ℕ
  champions_played : List (String × ℕ)
  roles_played : List (String × ℕ)
  best_game : Option GameSummary
  worst_game : Option GameSummary
  pentakills : ℕ
  quadrakills : ℕ
  triplekills : ℕ
  first_bloods : ℕ
  champion_stats : List (String × ChampAgg)
  monthly_stats : List (String × MonthAgg)
  hourly_stats : List (ℕ × HWAgg)
  weekday_stats : List (ℕ × HWAgg)
  best_kda : ℚ
  worst_kda : Option ℚ
deriving DecidableEq

/-- The initial `stats` dict plus `best_kda = -1`, `worst_kda = inf`. -/
def initAggState : AggState :=
  { total_games := 0, wins := 0, losses := 0
    total_kills := 0, total_deaths := 0, total_assists := 0
    total_playtime_minutes := 0
    champions_played := [], roles_played := []
    best_game := none, worst_game := none
    pentakills := 0, quadrakills := 0, triplekills := 0, first_bloods := 0
    champion_stats := [], monthly_stats := [], hourly_stats := [], weekday_stats := []
    best_kda := -1, worst_kda := none }

/-- `kda < worst_kda` where `worst_kda` may be `float('inf')` (`none`). -/
def ltWorstKda (k : ℚ) : Option ℚ → Bool
  | none => true
  | some w => k < w

/-- The participant lookup `for participant in info.get("participants", []):
if participant.get("puuid") == puuid: ... break` — first match wins. -/
def findPlayer (puuid : String) : List Participant → Option Participant
  | [] => none
  | p :: ps => if p.puuid = puuid then some p else findPlayer puuid ps

/-- One iteration of the `for match in matches:` loop of
`analyze_match_history`.  Note that `total_games` is incremented as soon as
the `info` section exists — *before* the participant lookup —, so a match
whose participants do not contain `puuid` still counts one game.
`dateFn` models `datetime.fromtimestamp` (applied only when
`gameCreation/1000 > 0`). -/
def processMatch (puuid : String) (dateFn : ℚ → DateParts) (st : AggState)
    (m : MatchRec) : AggState :=
  match m.info with
  | none => st
  | some info =>
    let st1 := { st with total_games := st.total_games + 1 }
    let gameCreationSec : ℚ := (info.gameCreation : ℚ) / 1000
    let gameDate : Option DateParts :=
      if 0 < gameCreationSec then some (dateFn gameCreationSec) else none
    match findPlayer puuid info.participants with
    | none => st1
    | some pd =>
      let won := pd.win
      let kills := pd.kills
      let deaths := pd.deaths
      let assists := pd.assists
      let championName := pd.championName
      let role := pd.teamPosition.getD (pd.individualPosition.getD "UTILITY")
      let kda := calculate_kda kills deaths assists
      let st2 :=
        { st1 with
          wins := st1.wins + (if won then 1 else 0)
          losses := st1.losses + (if won then 0 else 1)
          total_kills := st1.total_kills + kills
          total_deaths := st1.total_deaths + deaths
          total_assists := st1.total_assists + assists
          total_playtime_minutes := st1.total_playtime_minutes + info.gameDuration / 60
          champions_played := updateAssoc st1.champions_played championName 0 (· + 1)
          roles_played := updateAssoc st1.roles_played role 0 (· + 1)
          champion_stats :=
            updateAssoc st1.champion_stats championName ⟨0, 0, 0, 0, 0⟩
              (fun c =>
                ⟨c.games + 1, c.wins + (if won then 1 else 0),
                 c.kills + kills, c.deaths + deaths, c.assists + assists⟩)
          pentakills := st1.pentakills + pd.pentaKills
          quadrakills := st1.quadrakills + pd.quadraKills
          triplekills := st1.triplekills + pd.tripleKills
          first_bloods := st1.first_bloods + (if pd.firstBloodKill then 1 else 0)
          monthly_stats :=
            match gameDate with
            | none => st1.monthly_stats
            | some dp =>
              updateAssoc st1.monthly_stats dp.monthKey ⟨0, 0, 0, 0, 0, 0, 0, 0⟩
                (fun mo =>
                  ⟨mo.games + 1, mo.wins + (if won then 1 else 0),
                   mo.kills + kills, mo.deaths + deaths, mo.assists + assists,
                   mo.pentakills + pd.pentaKills, mo.quadrakills + pd.quadraKills,
                   mo.triplekills + pd.tripleKills⟩)
          hourly_stats :=
            match gameDate with
            | none => st1.hourly_stats
            | some dp =>
              updateAssocNat st1.hourly_stats dp.hour ⟨0, 0⟩
                (fun hw => ⟨hw.games + 1, hw.wins + (if won then 1 else 0)⟩)
          weekday_stats :=
            match gameDate with
            | none => st1.weekday_stats
            | some dp =>
              updateAssocNat st1.weekday_stats dp.weekday ⟨0, 0⟩
                (fun hw => ⟨hw.games + 1, hw.wins + (if won then 1 else 0)⟩) }
      let st3 :=
        if st2.best_kda < kda then
          { st2 with
            best_kda := kda
            best_game := some
              ⟨m.matchId, championName, kda, kills, deaths, assists, won,
               some pd.totalDamageDealtToChampions⟩ }
        else st2
      if ltWorstKda kda st3.worst_kda then
        { st3 with
          worst_kda := some kda
          worst_game := some
            ⟨m.matchId, championName, kda, kills, deaths, assists, won, none⟩ }
      else st3

/-! ### `analyze_temporal_patterns` -/

/-- Python's `str.split(sep)` for a one-character separator, written on the
character list (same semantics as `String.splitOn` with a one-char
separator, in a form the kernel can evaluate). -/
def splitOnChar (c : Char) : List Char → List (List Char)
  | [] => [[]]
  | x :: xs =>
    if x = c then [] :: splitOnChar c xs
    else
      match splitOnChar c xs with
      | [] => [[x]]
      | h :: t => (x :: h) :: t

/-- The `month_names` dict ("01" → "Enero", …). -/
def monthNames (part : String) : Option String :=
  if part = "01" then some "Enero" else if part = "02" then some "Febrero"
  else if part = "03" then some "Marzo" else if part = "04" then some "Abril"
  else if part = "05" then some "Mayo" else if part = "06" then some "Junio"
  else if part = "07" then some "Julio" else if part = "08" then some "Agosto"
  else if part = "09" then some "Septiembre" else if part = "10" then some "Octubre"
  else if part = "11" then some "Noviembre" else if part = "12" then some "Diciembre"
  else none

/-- `month_names.get(month_key.split("-")[1], month_key)` — format a
"YYYY-MM" key as a Spanish month name, falling back to the key itself.
(Keys produced by the aggregation loop always come from
`strftime("%Y-%m")` and therefore contain a "-".) -/
def formatMonthName (k : String) : String :=
  (monthNames (String.mk ((splitOnChar '-' k.toList).getD 1 []))).getD k

/-- The `weekday_names` dict (0 = Lunes … 6 = Domingo). -/
def weekdayNames (d : ℕ) : Option String :=
  if d = 0 then some "Lunes" else if d = 1 then some "Martes"
  else if d = 2 then some "Miércoles" else if d = 3 then some "Jueves"
  else if d = 4 then some "Viernes" else if d = 5 then some "Sábado"
  else if d = 6 then some "Domingo" else none

/-- The repeated `if key(data) > current_max: update` loop shape used for
`most_active_month`, `best_multikill_month` and `peak_hour`:
running maximum of `keyOf` with strict `>` (first-seen wins ties),
starting from `(None, 0)`. -/
def mostKeyFold {α γ : Type} (keyOf : γ → ℕ) (l : List (α × γ))
    (acc : Option α × ℕ) : Option α × ℕ :=
  l.foldl (fun a p => if a.2 < keyOf p.2 then (some p.1, keyOf p.2) else a) acc

/-- The `if games >= 5: rate = ...; if rate > best: update` loop shape used
for `best_winrate_month`, `best_kda_month` and `best_wr_weekday`: running
maximum of `rateOf` over entries with `eligible`, strict `>`, starting from
`(None, 0)`. -/
def bestRateFold {α γ : Type} (eligible : γ → Bool) (rateOf : γ → ℚ)
    (l : List (α × γ)) (acc : Option α × ℚ) : Option α × ℚ :=
  l.foldl
    (fun a p =>
      if eligible p.2 then
        if a.2 < rateOf p.2 then (some p.1, rateOf p.2) else a
      else a) acc

/-- `(data["wins"] / data["games"]) * 100` for a month entry. -/
def monthWinrate (g : MonthAgg) : ℚ := ((g.wins : ℚ) / (g.games : ℚ)) * 100

/-- `(data["kills"] + data["assists"]) / max(data["deaths"], 1)`. -/
def monthKdaRate (g : MonthAgg) : ℚ :=
  ((g.kills : ℚ) + (g.assists : ℚ)) / ((max g.deaths 1 : ℕ) : ℚ)

/-- `(wins / games) * 100` for a weekday entry. -/
def dayWinrate (g : HWAgg) : ℚ := ((g.wins : ℚ) / (g.games : ℚ)) * 100

/-- `data["pentakills"] + data["quadrakills"] + data["triplekills"]`. -/
def monthMulti (g : MonthAgg) : ℕ := g.pentakills + g.quadrakills + g.triplekills

/-- Accumulator of the single `for day, data in weekday_stats.items():` loop
that computes the favourite weekday and the best-winrate weekday together. -/
structure WeekdayAcc where
  favorite : Option ℕ
  maxGames : ℕ
  bestDay : Option ℕ
  bestWr : ℚ
deriving DecidableEq

/-- The fused weekday loop of `analyze_temporal_patterns`. -/
def weekdayFold (l : List (ℕ × HWAgg)) (acc : WeekdayAcc) : WeekdayAcc :=
  l.foldl
    (fun a p =>
      let a1 :=
        if a.maxGames < p.2.games then
          { a with favorite := some p.1, maxGames := p.2.games }
        else a
      if 5 ≤ p.2.games then
        if a1.bestWr < dayWinrate p.2 then
          { a1 with bestDay := some p.1, bestWr := dayWinrate p.2 }
        else a1
      else a1) acc

/-- `max` over the four `(label, games)` time-of-day buckets: Python's
`max(list, key=...)` keeps the first maximal element. -/
def maxBySecond (h : String × ℕ) (t : List (String × ℕ)) : String × ℕ :=
  t.foldl (fun acc p => if acc.2 < p.2 then p else acc) h

/-- `{"month": ..., "games": ...}` for `most_active_month`. -/
structure MonthHighlight where
  month : Option String
  games : ℕ
deriving DecidableEq

/-- `best_multikill_month` entry. -/
structure MultiHighlight where
  month : String
  total_multikills : ℕ
  pentakills : ℕ
  quadrakills : ℕ
deriving DecidableEq

/-- `best_winrate_month` entry. -/
structure WrHighlight where
  month : String
  winrate : ℚ
deriving DecidableEq

/-- `best_kda_month` entry. -/
structure KdaHighlight where
  month : String
  kda : ℚ
deriving DecidableEq

/-- `best_winrate_weekday` entry (`weekday_names.get` may miss). -/
structure WrDayHighlight where
  day : Option String
  winrate : ℚ
deriving DecidableEq

/-- The dict returned by `analyze_temporal_patterns`. -/
structure TemporalInsights where
  most_active_month : MonthHighlight
  best_multikill_month : Option MultiHighlight
  best_winrate_month : Option WrHighlight
  best_kda_month : Option KdaHighlight
  peak_hour : Option ℕ
  favorite_time_of_day : String
  time_morning : ℕ
  time_afternoon : ℕ
  time_evening : ℕ
  time_night : ℕ
  favorite_weekday : Option String
  favorite_weekday_games : ℕ
  best_winrate_weekday : Option WrDayHighlight
  weekday_distribution : List (String × ℕ)
deriving DecidableEq

/-- `hourly_stats.get(h, {}).get("games", 0)` summed over an hour range. -/
def hourRangeGames (hourly : List (ℕ × HWAgg)) (lo hi : ℕ) : ℕ :=
  ((List.range (hi - lo)).map
    (fun i => (((hourly.lookup (lo + i)).getD ⟨0, 0⟩).games))).sum

/-- `analytics.analyze_temporal_patterns`, over insertion-ordered association
lists standing for the three per-period dicts. -/
def analyze_temporal_patterns (monthly_stats : List (String × MonthAgg))
    (hourly_stats : List (ℕ × HWAgg)) (weekday_stats : List (ℕ × HWAgg)) :
    TemporalInsights :=
  let mostActive := mostKeyFold MonthAgg.games monthly_stats (none, 0)
  let bestMulti := mostKeyFold monthMulti monthly_stats (none, 0)
  let bestWr := bestRateFold (fun g => 5 ≤ g.games) monthWinrate monthly_stats (none, 0)
  let bestKda := bestRateFold (fun g => 5 ≤ g.games) monthKdaRate monthly_stats (none, 0)
  let peak := mostKeyFold HWAgg.games hourly_stats (none, 0)
  let morning_games := hourRangeGames hourly_stats 6 12
  let afternoon_games := hourRangeGames hourly_stats 12 18
  let evening_games := hourRangeGames hourly_stats 18 24
  let night_games := hourRangeGames hourly_stats 0 6
  let favorite_time :=
    maxBySecond ("mañana", morning_games)
      [("tarde", afternoon_games), ("noche", evening_games),
       ("madrugada", night_games)]
  let wk := weekdayFold weekday_stats ⟨none, 0, none, 0⟩
  { most_active_month :=
      ⟨mostActive.1.map formatMonthName, mostActive.2⟩
    best_multikill_month :=
      match bestMulti.1 with
        | none => none
        | some k =>
          some
            ⟨formatMonthName k, bestMulti.2,
             ((monthly_stats.lookup k).getD ⟨0, 0, 0, 0, 0, 0, 0, 0⟩).pentakills,
             ((monthly_stats.lookup k).getD ⟨0, 0, 0, 0, 0, 0, 0, 0⟩).quadrakills⟩
    best_winrate_month :=
      match bestWr.1 with
      | none => none
      | some k => some ⟨formatMonthName k, round2 bestWr.2⟩
    best_kda_month :=
      match bestKda.1 with
      | none => none
      | some k => some ⟨formatMonthName k, round2 bestKda.2⟩
    peak_hour := peak.1
    favorite_time_of_day := favorite_time.1
    time_morning := morning_games
    time_afternoon := afternoon_games
    time_evening := evening_games
    time_night := night_games
    favorite_weekday := wk.favorite.bind weekdayNames
    favorite_weekday_games := wk.maxGames
    best_winrate_weekday :=
      match wk.bestDay with
      | none => none
      | some d => some ⟨weekdayNames d, round2 wk.bestWr⟩
    weekday_distribution :=
      weekday_stats.map (fun p => ((weekdayNames p.1).getD "", p.2.games)) }

/-! ### Finalisation of `analyze_match_history` -/

/-- Stable insertion of `x` after all earlier elements whose key is `≥ key x`
— one step of a stable descending sort. -/
def insertDesc {α : Type} (keyOf : α → ℕ) (x : α) : List α → List α
  | [] => [x]
  | y :: ys => if keyOf x ≤ keyOf y then y :: insertDesc keyOf x ys else x :: y :: ys

/-- Stable sort by `keyOf` descending (ties keep the original order), the
semantics of `Counter.most_common` and of `sorted(..., key=..., reverse=True)`. -/
def sortDescBy {α : Type} (keyOf : α → ℕ) (l : List α) : List α :=
  l.foldl (fun acc x => insertDesc keyOf x acc) []

/-- One `champion_details` entry. -/
structure ChampDetail where
  champion : String
  games : ℕ
  wins : ℕ
  winrate : ℚ
  kda : ℚ
  avg_kills : ℚ
  avg_deaths : ℚ
  avg_assists : ℚ
deriving DecidableEq

/-- The dict returned by `analyze_match_history` (after the `del` of the raw
counters).  `avg_kills`, `avg_deaths`, `avg_assists` and `avg_game_duration`
are `Option` because those keys are only inserted when `total_games > 0`;
`temporal_insights` is `none` for the empty-dict case. -/
structure Stats where
  total_games : ℕ
  wins : ℕ
  losses : ℕ
  winrate : ℚ
  total_kills : ℕ
  total_deaths : ℕ
  total_assists : ℕ
  avg_kda : ℚ
  total_playtime_minutes : ℕ
  best_game : Option GameSummary
  worst_game : Option GameSummary
  pentakills : ℕ
  quadrakills : ℕ
  triplekills : ℕ
  first_bloods : ℕ
  avg_kills : Option ℚ
  avg_deaths : Option ℚ
  avg_assists : Option ℚ
  avg_game_duration : Option ℚ
  top_champions : List (String × ℕ)
  top_roles : List (String × ℕ)
  champion_details : List ChampDetail
  temporal_insights : Option TemporalInsights
deriving DecidableEq

/-- `analytics.analyze_match_history`: fold the match list through
`processMatch`, then compute the derived fields.  `dateFn` models
`datetime.fromtimestamp` (month key, hour, weekday) and is only consulted
for positive timestamps. -/
def analyze_match_history (ms : List MatchRec) (puuid : String)
    (dateFn : ℚ → DateParts) : Stats :=
  let st := ms.foldl (processMatch puuid dateFn) initAggState
  { total_games := st.total_games
    wins := st.wins
    losses := st.losses
    winrate :=
      if 0 < st.total_games then
        round2 (((st.wins : ℚ) / (st.total_games : ℚ)) * 100)
      else 0
    total_kills := st.total_kills
    total_deaths := st.total_deaths
    total_assists := st.total_assists
    avg_kda :=
      if 0 < st.total_games then
        calculate_kda st.total_kills st.total_deaths st.total_assists
      else 0
    total_playtime_minutes := st.total_playtime_minutes
    best_game := st.best_game
    worst_game := st.worst_game
    pentakills := st.pentakills
    quadrakills := st.quadrakills
    triplekills := st.triplekills
    first_bloods := st.first_bloods
    avg_kills :=
      if 0 < st.total_games then
        some (round2 ((st.total_kills : ℚ) / (st.total_games : ℚ)))
      else none
    avg_deaths :=
      if 0 < st.total_games then
        some (round2 ((st.total_deaths : ℚ) / (st.total_games : ℚ)))
      else none
    avg_assists :=
      if 0 < st.total_games then
        some (round2 ((st.total_assists : ℚ) / (st.total_games : ℚ)))
      else none
    avg_game_duration :=
      if 0 < st.total_games then
        some (round2 ((st.total_playtime_minutes : ℚ) / (st.total_games : ℚ)))
      else none
    top_champions := (sortDescBy Prod.snd st.champions_played).take 10
    top_roles := sortDescBy Prod.snd st.roles_played
    champion_details :=
      (sortDescBy ChampDetail.games
        ((st.champion_stats.filter (fun p => 0 < p.2.games)).map
          (fun p =>
            ⟨p.1, p.2.games, p.2.wins,
             round2 (((p.2.wins : ℚ) / (p.2.games : ℚ)) * 100),
             calculate_kda p.2.kills p.2.deaths p.2.assists,
             round2 ((p.2.kills : ℚ) / (p.2.games : ℚ)),
             round2 ((p.2.deaths : ℚ) / (p.2.games : ℚ)),
             round2 ((p.2.assists : ℚ) / (p.2.games : ℚ))⟩))).take 10
    temporal_insights :=
      if st.monthly_stats.isEmpty then none
      else some (analyze_temporal_patterns st.monthly_stats st.hourly_stats st.weekday_stats) }

/-! ### `get_player_wrapped` match-acquisition pipeline (`server_http.py`) -/

/-- The `while True:` pagination loop of `get_player_wrapped` (step 3):
request a page of up to 100 IDs at the current offset, stop on an empty
page, extend and advance the offset by the page length, stop when the page
returned fewer than 100.  `pages` models
`client.get_match_history(puuid, count=100, start=offset, ...)`; `fuel`
bounds the number of iterations (any terminating run of the Python loop is
reproduced by every sufficiently large fuel). -/
def collect_match_ids (pages : ℕ → List String) : ℕ → ℕ → List String
  | 0, _ => []
  | fuel + 1, offset =>
    let batch := pages offset
    if batch.isEmpty then []
    else if batch.length < 100 then batch
    else batch ++ collect_match_ids pages fuel (offset + batch.length)

/-- The detail-fetch loop of `get_player_wrapped` (step 4): `for match_id in
match_ids: try: ... append ... except Exception: continue`.  `fetch` models
`client.get_match_details`, with `none` standing for a raised exception. -/
def fetch_details (fetch : String → Option MatchRec) (ids : List String) :
    List MatchRec :=
  ids.foldl
    (fun acc i =>
      match fetch i with
      | some m => acc ++ [m]
      | none => acc) []

/-- The report fields of `get_player_wrapped` that the pipeline claims are
about. -/
structure WrappedCore where
  all_match_ids : List String
  total_matches_in_year : ℕ
  fetched : List MatchRec
  matches_analyzed : ℕ
  statistics : Stats
deriving DecidableEq

/-- Steps 3–5 of `get_player_wrapped`: clamp `max_matches` to at least 1
(`max_matches = max(max_matches, 1)`), paginate all match IDs, set
`total_matches_in_year = len(all_match_ids)`, detail-fetch only the first
`max_matches` IDs, and run the aggregator over the successfully fetched
matches; `matches_analyzed = len(matches)`. -/
def get_player_wrapped_core (pages : ℕ → List String) (fuel : ℕ)
    (fetch : String → Option MatchRec) (max_matches : ℤ) (puuid : String)
    (dateFn : ℚ → DateParts) : WrappedCore :=
  let mm := max max_matches 1
  let all_match_ids := collect_match_ids pages fuel 0
  let match_ids := all_match_ids.take mm.toNat
  let fetched := fetch_details fetch match_ids
  { all_match_ids := all_match_ids
    total_matches_in_year := all_match_ids.length
    fetched := fetched
    matches_analyzed := fetched.length
    statistics := analyze_match_history fetched puuid dateFn }

/-- An upstream that honours `start`/`count` pagination over a fixed ID
list, the behaviour documented for the match-history endpoint: page at
`offset` is the next (up to) 100 IDs. -/
def honestPages (ids : List String) : ℕ → List String :=
  fun offset => (ids.drop offset).take 100

/-! ### `filter_matches_by_year` (`analytics.py`) -/

/-- Decimal-digit string to `ℕ` (`none` unless nonempty and all digits). -/
def digitsToNat (l : List Char) : Option ℕ :=
  if l ≠ [] ∧ l.all Char.isDigit then
    some (l.foldl (fun acc c => acc * 10 + (c.toNat - 48)) 0)
  else none

/-- Model of Python's `int(s)` on the timestamp field: an optional sign
followed by decimal digits, `none` for a `ValueError`. -/
def pyInt (l : List Char) : Option ℤ :=
  match l with
  | '-' :: rest => (digitsToNat rest).map (fun n => -(n : ℤ))
  | '+' :: rest => (digitsToNat rest).map (fun n => (n : ℤ))
  | l => (digitsToNat l).map (fun n => (n : ℤ))

/-- Whether `filter_matches_by_year` keeps one match ID: the `try:` body
appends when the ID has at least two `_`-separated fields and the second
either fails to parse (`ValueError` → kept) or parses to a timestamp inside
`[start_of_year, end_of_year)`; an ID with fewer than two fields raises
nothing and falls through the `if` — it is silently dropped. -/
def keepMatchId (startMs endMs : ℤ) (mid : String) : Bool :=
  let parts := splitOnChar '_' mid.toList
  if 2 ≤ parts.length then
    match pyInt (parts.getD 1 []) with
    | some tsec => decide (startMs ≤ tsec * 1000 ∧ tsec * 1000 < endMs)
    | none => true
  else false

/-- `analytics.filter_matches_by_year`.  `yearStartSec` models
`datetime(year, 1, 1).timestamp()` (epoch seconds of local midnight,
Jan 1); the code multiplies it by 1000 and compares against
`timestamp_seconds * 1000`. -/
def filter_matches_by_year (yearStartSec : ℤ → ℤ) (match_ids : List String)
    (year : Option ℤ) : List String :=
  let y := year.getD 2025
  let startOfYear := yearStartSec y * 1000
  let endOfYear := yearStartSec (y + 1) * 1000
  match_ids.foldl
    (fun acc mid => if keepMatchId startOfYear endOfYear mid then acc ++ [mid] else acc)
    []

/-! ### `client.py`: rate limiter and request retry loop -/

/-- Result of one call to `_wait_for_rate_limit`: the requested sleep of the
2-minute branch (`wait_time + 0.1`, if taken), the requested sleep of the
1-second branch (`1.0 - (now - recent[0]) + 0.05`, if taken), and the final
`_request_times` list (with the new admission appended). -/
structure RLRun where
  sleep2min : Option ℚ
  sleep1s : Option ℚ
  final : List ℚ
deriving DecidableEq

/-- Timestamps retained by `[t for t in self._request_times if now - t < 120]`. -/
def pruneWindow (now : ℚ) (ts : List ℚ) : List ℚ :=
  ts.filter (fun t => now - t < 120)

/-- The 1-second check and the final append of `_wait_for_rate_limit`:
`recent = [t for t in times if now - t < 1.0]`; if at least 19 remain,
request a sleep of `1.0 - (now - recent[0]) + 0.05`; then append the new
admission timestamp. -/
def rlSecondPhase (cur : List ℚ) (now tEnd : ℚ) : Option ℚ × List ℚ :=
  let recent := cur.filter (fun t => now - t < 1)
  (if 19 ≤ recent.length then some (1 - (now - recent.headD 0) + 1/20) else none,
   cur ++ [tEnd])

/-- `client._wait_for_rate_limit`.  Clock reads are passed in: `now1` is the
initial `time()`, `now2` the `time()` re-read after the 2-minute sleep (used
only when that branch sleeps), `tEnd` the `time()` recorded at the end.
Budgets are the hard-coded `_requests_per_2min = 95` and
`_requests_per_second = 19`; the 2-minute branch only sleeps when its
computed `wait_time` is positive, and re-prunes after waking. -/
def wait_for_rate_limit (ts : List ℚ) (now1 now2 tEnd : ℚ) : RLRun :=
  if 95 ≤ (pruneWindow now1 ts).length ∧
      0 < 120 - (now1 - (pruneWindow now1 ts).headD 0) then
    { sleep2min := some (120 - (now1 - (pruneWindow now1 ts).headD 0) + 1/10)
      sleep1s := (rlSecondPhase (pruneWindow now2 (pruneWindow now1 ts)) now2 tEnd).1
      final := (rlSecondPhase (pruneWindow now2 (pruneWindow now1 ts)) now2 tEnd).2 }
  else
    { sleep2min := none
      sleep1s := (rlSecondPhase (pruneWindow now1 ts) now1 tEnd).1
      final := (rlSecondPhase (pruneWindow now1 ts) now1 tEnd).2 }

/-- An upstream HTTP response as classified by `response.raise_for_status()`:
a parsed 2xx body, or an error status with an optional `Retry-After` header. -/
inductive HttpResp where
  | ok (body : String)
  | err (status : ℕ) (retryAfter : Option ℕ)
deriving DecidableEq

/-- Observable events of `_make_request`: the `_wait_for_rate_limit()` call
made before an attempt, the attempt itself, and an `asyncio.sleep` of the
computed backoff (in seconds). -/
inductive ReqEv where
  | rlWait
  | request (attempt : ℕ)
  | sleepFor (secs : ℕ)
deriving DecidableEq

/-- Outcome of `_make_request`: a returned body, the re-raised 429 after the
retries are exhausted, an immediately re-raised other HTTP error, or the
unreachable fall-through `raise Exception(...)` after the loop. -/
inductive ReqResult where
  | success (body : String)
  | throttled
  | httpError (status : ℕ)
  | exhausted
deriving DecidableEq

/-- The `for attempt in range(max_retries):` loop of `_make_request`, from
iteration `attempt` with `fuel` iterations left, returning the emitted event
trace and the outcome.  On a 429 the code reads
`retry_after = int(headers.get('Retry-After', 2))`, computes
`wait_time = retry_after if attempt == 0 else retry_after * 2**attempt`,
sleeps and retries while `attempt < max_retries - 1`, and re-raises
otherwise; any other HTTP error is re-raised at once. -/
def make_request_from (responses : ℕ → HttpResp) (maxRetries : ℕ) :
    ℕ → ℕ → List ReqEv × ReqResult
  | _, 0 => ([], .exhausted)
  | attempt, fuel + 1 =>
    match responses attempt with
    | .ok b => ([.rlWait, .request attempt], .success b)
    | .err status retryAfter =>
      if status = 429 then
        let ra := retryAfter.getD 2
        let waitTime := if attempt = 0 then ra else ra * 2 ^ attempt
        if attempt < maxRetries - 1 then
          let rest := make_request_from responses maxRetries (attempt + 1) fuel
          (.rlWait :: .request attempt :: .sleepFor waitTime :: rest.1, rest.2)
        else ([.rlWait, .request attempt], .throttled)
      else ([.rlWait, .request attempt], .httpError status)

/-- `client._make_request` with its default `max_retries = 3`. -/
def make_request (responses : ℕ → HttpResp) : List ReqEv × ReqResult :=
  make_request_from responses 3 0 3

/-- Every `request` event in a trace is immediately preceded by an `rlWait`
(the rate limiter is consulted before every attempt). -/
def waitPrecedesRequests : List ReqEv → Bool
  | [] => true
  | .request _ :: _ => false
  | .rlWait :: .request _ :: rest => waitPrecedesRequests rest
  | .rlWait :: rest => waitPrecedesRequests rest
  | .sleepFor _ :: rest => waitPrecedesRequests rest

/-- Counts the attempts recorded in a trace. -/
def countRequests (evs : List ReqEv) : ℕ :=
  evs.countP (fun e => match e with | .request _ => true | _ => false)

/-! ### Helper lemmas on the pipeline -/

theorem fetch_details_foldl (fetch : String → Option MatchRec) (ids : List String) :
    ∀ acc : List MatchRec,
      ids.foldl
        (fun acc i =>
          match fetch i with
          | some m => acc ++ [m]
          | none => acc) acc = acc ++ ids.filterMap fetch := by
  induction ids with
  | nil => intro acc; simp
  | cons i rest ih =>
    intro acc
    simp only [List.foldl_cons, List.filterMap_cons]
    cases h : fetch i with
    | none => simp [ih acc]
    | some m => simp [ih (acc ++ [m])]

theorem fetch_details_eq_filterMap (fetch : String → Option MatchRec)
    (ids : List String) : fetch_details fetch ids = ids.filterMap fetch := by
  unfold fetch_details
  simpa using fetch_details_foldl fetch ids []

theorem length_filterMap_eq_countP (fetch : String → Option MatchRec)
    (ids : List String) :
    (ids.filterMap fetch).length = ids.countP (fun i => (fetch i).isSome) := by
  induction ids with
  | nil => simp
  | cons i rest ih =>
    simp only [List.filterMap_cons, List.countP_cons]
    cases h : fetch i <;> simp [ih, h]

theorem collect_match_ids_honest (ids : List String) :
    ∀ fuel offset, ids.length ≤ offset + fuel * 100 →
      collect_match_ids (honestPages ids) fuel offset = ids.drop offset := by
  intro fuel
  induction fuel with
  | zero =>
    intro off h
    simp only [Nat.zero_mul, Nat.add_zero] at h
    simp [collect_match_ids, List.drop_eq_nil_of_le h]
  | succ n ih =>
    intro off h
    rw [collect_match_ids]
    show (if (honestPages ids off).isEmpty then []
      else if (honestPages ids off).length < 100 then honestPages ids off
      else honestPages ids off ++
        collect_match_ids (honestPages ids) n (off + (honestPages ids off).length)) =
      ids.drop off
    have hpage : honestPages ids off = (ids.drop off).take 100 := rfl
    by_cases hnil : (ids.drop off).take 100 = []
    · have hd : ids.drop off = [] := by
        rcases List.take_eq_nil_iff.mp hnil with h1 | h1
        · omega
        · exact h1
      rw [hpage, if_pos (by simp [hnil])]
      exact hd.symm
    · rw [hpage, if_neg (by simp [hnil])]
      by_cases hlen : ((ids.drop off).take 100).length < 100
      · have hsh : (ids.drop off).length < 100 := by
          rw [List.length_take] at hlen
          omega
        rw [if_pos hlen]
        exact List.take_of_length_le (le_of_lt hsh)
      · have hlen100 : ((ids.drop off).take 100).length = 100 := by
          have := List.length_take 100 (ids.drop off)
          omega
        have hge : 100 ≤ (ids.drop off).length := by
          rw [List.length_take] at hlen100
          omega
        have hlends : 100 + off ≤ ids.length := by
          have := List.length_drop off ids
          omega
        rw [if_neg hlen, hlen100]
        rw [ih (off + 100) (by omega)]
        have hdd : ids.drop (off + 100) = (ids.drop off).drop 100 := by
          rw [List.drop_drop]
        rw [hdd]
        exact List.take_append_drop 100 (ids.drop off)

/-! ### Shared concrete sample data for witnesses and counterexamples -/

/-- A fixed calendar collaborator for concrete runs. -/
def sampleDateFn : ℚ → DateParts := fun _ => ⟨"2025-01", 3, 2⟩

/-- A participant record for player "P" (2/2/2 on Ahri, a win). -/
def samplePlayerA : Participant :=
  ⟨"P", true, 2, 2, 2, "Ahri", none, none, 0, 0, 0, false, 100⟩

/-- A participant record for player "P" (4/4/4 on Zed, a loss): same KDA 2.0
as `samplePlayerA`. -/
def samplePlayerB : Participant :=
  ⟨"P", false, 4, 4, 4, "Zed", none, none, 0, 0, 0, false, 50⟩

/-- Match "A" played by `samplePlayerA`. -/
def sampleMatchA : MatchRec := ⟨some "A", some ⟨300, 0, [samplePlayerA]⟩⟩

/-- Match "B" played by `samplePlayerB`. -/
def sampleMatchB : MatchRec := ⟨some "B", some ⟨300, 0, [samplePlayerB]⟩⟩

/-- A detail fetcher that always succeeds. -/
def sampleFetch : String → Option MatchRec :=
  fun mid => some ⟨some mid, some ⟨300, 0, [samplePlayerA]⟩⟩

/-- 342 distinct match IDs. -/
def ids342 : List String := (List.range 342).map toString

/-- A concrete model of `datetime(year, 1, 1).timestamp()` (no leap years;
only used to instantiate the year-boundary collaborator on concrete runs). -/
def sampleYearStart : ℤ → ℤ := fun y => (y - 1970) * 31536000

/-! ### Claims C1, C3, C7, C8, C10 -/

/-- C1 counterexample: with `max_matches = 0` (a value `≤ 0`) and one match
available whose detail fetch succeeds, the report analyzes 1 match, so
`matches_analyzed ≤ max_matches` fails — `get_player_wrapped` first clamps
`max_matches = max(max_matches, 1)`. -/
theorem c1_counterexample :
    (get_player_wrapped_core (honestPages ["X_1"]) 1 sampleFetch 0 "P"
        sampleDateFn).matches_analyzed = 1 ∧
    ¬(((get_player_wrapped_core (honestPages ["X_1"]) 1 sampleFetch 0 "P"
        sampleDateFn).matches_analyzed : ℤ) ≤ 0) := by
  decide

/-- C1 (amended): for every successful report and every `max_matches`
(including values `≤ 0`), `total_matches_in_year ≥ matches_analyzed`, and
`matches_analyzed ≤ max(max_matches, 1)` — the clamp to a minimum of 1
means a caller passing `max_matches ≤ 0` can still get one match analyzed. -/
theorem c1_report_bounds_amended (pages : ℕ → List String) (fuel : ℕ)
    (fetch : String → Option MatchRec) (max_matches : ℤ) (puuid : String)
    (dateFn : ℚ → DateParts) :
    (get_player_wrapped_core pages fuel fetch max_matches puuid
        dateFn).matches_analyzed ≤
      (get_player_wrapped_core pages fuel fetch max_matches puuid
        dateFn).total_matches_in_year ∧
    ((get_player_wrapped_core pages fuel fetch max_matches puuid
        dateFn).matches_analyzed : ℤ) ≤ max max_matches 1 := by
  have hlen := List.length_filterMap_le fetch
    ((collect_match_ids pages fuel 0).take (max max_matches 1).toNat)
  have htake := List.length_take (max max_matches 1).toNat
    (collect_match_ids pages fuel 0)
  rw [← fetch_details_eq_filterMap] at hlen
  constructor
  · show (fetch_details fetch
        ((collect_match_ids pages fuel 0).take (max max_matches 1).toNat)).length ≤
      (collect_match_ids pages fuel 0).length
    omega
  · show ((fetch_details fetch
        ((collect_match_ids pages fuel 0).take (max max_matches 1).toNat)).length : ℤ) ≤
      max max_matches 1
    have hnn : (0 : ℤ) ≤ max max_matches 1 :=
      le_trans (by norm_num) (le_max_right max_matches 1)
    have htn : ((max max_matches 1).toNat : ℤ) = max max_matches 1 :=
      Int.toNat_of_nonneg hnn
    omega

/-- C3: the pagination loop requests pages starting at offset 0, advances
the offset by the number of IDs each page returned, stops exactly when a
page is empty or shorter than the page size 100 (first conjunct: the loop's
one-step unfolding, for an arbitrary upstream); against an upstream that
honours `start`/`count` pagination over a list `ids`, the collector returns
exactly `ids`, `total_matches_in_year` counts every collected ID, and only
the first `max_matches` IDs are detail-fetched, with `matches_analyzed`
counting the successful fetches among that prefix only. -/
theorem c3_pagination_exact_total (ids : List String)
    (fetch : String → Option MatchRec) (max_matches : ℤ) (puuid : String)
    (dateFn : ℚ → DateParts) (fuel : ℕ) (hfuel : ids.length ≤ fuel * 100)
    (hmm : 1 ≤ max_matches) :
    (∀ (pages : ℕ → List String) (f off : ℕ),
      collect_match_ids pages (f + 1) off =
        if (pages off).isEmpty then []
        else if (pages off).length < 100 then pages off
        else pages off ++ collect_match_ids pages f (off + (pages off).length)) ∧
    (get_player_wrapped_core (honestPages ids) fuel fetch max_matches puuid
        dateFn).all_match_ids = ids ∧
    (get_player_wrapped_core (honestPages ids) fuel fetch max_matches puuid
        dateFn).total_matches_in_year = ids.length ∧
    (get_player_wrapped_core (honestPages ids) fuel fetch max_matches puuid
        dateFn).fetched = fetch_details fetch (ids.take max_matches.toNat) ∧
    (get_player_wrapped_core (honestPages ids) fuel fetch max_matches puuid
        dateFn).matches_analyzed =
      (ids.take max_matches.toNat).countP (fun i => (fetch i).isSome) := by
  have hall : collect_match_ids (honestPages ids) fuel 0 = ids := by
    simpa using collect_match_ids_honest ids fuel 0 (by omega)
  have hmax : max max_matches 1 = max_matches := max_eq_left hmm
  refine ⟨fun pages f off => rfl, ?_, ?_, ?_, ?_⟩
  · unfold get_player_wrapped_core
    simpa using hall
  · unfold get_player_wrapped_core
    simpa using congrArg List.length hall
  · unfold get_player_wrapped_core
    simp only [hall, hmax]
  · unfold get_player_wrapped_core
    simp only [hall, hmax, fetch_details_eq_filterMap,
      length_filterMap_eq_countP]

/-- Witness for C3 at the spec's scenario: 342 IDs available, budget 5. -/
theorem c3_pagination_exact_total_witness :
    ids342.length ≤ 4 * 100 ∧ (1 : ℤ) ≤ 5 ∧
    (get_player_wrapped_core (honestPages ids342) 4 sampleFetch 5 "P"
        sampleDateFn).total_matches_in_year = ids342.length ∧
    (get_player_wrapped_core (honestPages ids342) 4 sampleFetch 5 "P"
        sampleDateFn).matches_analyzed =
      (ids342.take (5 : ℤ).toNat).countP (fun i => (sampleFetch i).isSome) :=
  ⟨by decide, by decide,
   (c3_pagination_exact_total ids342 sampleFetch 5 "P" sampleDateFn 4
     (by decide) (by decide)).2.2.1,
   (c3_pagination_exact_total ids342 sampleFetch 5 "P" sampleDateFn 4
     (by decide) (by decide)).2.2.2.2⟩

/-- C7: the claim is right about the code's intent but the code drops, rather
than keeps, a match ID whose embedded timestamp cannot be parsed because the
ID has no `_` delimiter: `"ABC".split('_')` has one field, the
`len(parts) >= 2` guard raises no `ValueError`, and the loop appends
nothing — contradicting the code's own except-branch comment ("Si no se
puede parsear, incluir la partida").  A parse failure *inside* the second
field (`int` raising) is kept as claimed (second conjunct). -/
theorem c7_unparseable_id_dropped :
    filter_matches_by_year sampleYearStart ["ABC"] (some 2025) = [] ∧
    (splitOnChar '_' "ABC".toList).length < 2 ∧
    filter_matches_by_year sampleYearStart ["LA1_xyz"] (some 2025) = ["LA1_xyz"] := by
  decide

/-- C8: the detail-fetch loop returns exactly the successfully fetched
records, in input order, with failures simply absent (`filterMap` of the
fetcher), and in particular `[good, bad, good2]` with `bad` raising yields
exactly `[detail(good), detail(good2)]` — no exception propagates (the
loop is total). -/
theorem c8_detail_fetch_tolerant (fetch : String → Option MatchRec)
    (ids : List String) :
    fetch_details fetch ids = ids.filterMap fetch ∧
    (∀ g b g2 d1 d2, fetch g = some d1 → fetch b = none → fetch g2 = some d2 →
      fetch_details fetch [g, b, g2] = [d1, d2]) := by
  refine ⟨fetch_details_eq_filterMap fetch ids, ?_⟩
  intro g b g2 d1 d2 hg hb hg2
  rw [fetch_details_eq_filterMap]
  simp [List.filterMap, hg, hb, hg2]

/-- Witness for C8: a concrete fetcher failing exactly on `"bad"`. -/
theorem c8_detail_fetch_tolerant_witness :
    (fun mid => if mid = "bad" then none else sampleFetch mid) "good" =
      some ⟨some "good", some ⟨300, 0, [samplePlayerA]⟩⟩ ∧
    (fun mid => if mid = "bad" then none else sampleFetch mid) "bad" = none ∧
    (fun mid => if mid = "bad" then none else sampleFetch mid) "good2" =
      some ⟨some "good2", some ⟨300, 0, [samplePlayerA]⟩⟩ ∧
    fetch_details (fun mid => if mid = "bad" then none else sampleFetch mid)
        ["good", "bad", "good2"] =
      [⟨some "good", some ⟨300, 0, [samplePlayerA]⟩⟩,
       ⟨some "good2", some ⟨300, 0, [samplePlayerA]⟩⟩] :=
  ⟨by decide, by decide, by decide,
   (c8_detail_fetch_tolerant (fun mid => if mid = "bad" then none else sampleFetch mid)
       []).2 "good" "bad" "good2" _ _ (by decide) (by decide) (by decide)⟩

/-- C10: for `max_matches ≤ 0` the limit is clamped to 1 before the prefix
is taken — the whole report is the one produced by `max_matches = 1`, and at
most one match is analyzed. -/
theorem c10_max_matches_clamped (pages : ℕ → List String) (fuel : ℕ)
    (fetch : String → Option MatchRec) (max_matches : ℤ) (puuid : String)
    (dateFn : ℚ → DateParts) (h : max_matches ≤ 0) :
    get_player_wrapped_core pages fuel fetch max_matches puuid dateFn =
      get_player_wrapped_core pages fuel fetch 1 puuid dateFn ∧
    (get_player_wrapped_core pages fuel fetch max_matches puuid
        dateFn).matches_analyzed ≤ 1 := by
  have hm : max max_matches 1 = 1 := max_eq_right (h.trans (by norm_num))
  constructor
  · unfold get_player_wrapped_core
    rw [hm]
    norm_num
  · have hm1 : (max max_matches 1).toNat = 1 := by rw [hm]; rfl
    have hlen := List.length_filterMap_le fetch
      ((collect_match_ids pages fuel 0).take (max max_matches 1).toNat)
    have htake := List.length_take (max max_matches 1).toNat
      (collect_match_ids pages fuel 0)
    rw [← fetch_details_eq_filterMap] at hlen
    show (fetch_details fetch
        ((collect_match_ids pages fuel 0).take (max max_matches 1).toNat)).length ≤ 1
    rw [hm1] at hlen htake ⊢
    omega

/-- Witness for C10: a caller passing `max_matches = 0` with one available
match still gets `matches_analyzed = 1`. -/
theorem c10_max_matches_clamped_witness :
    (0 : ℤ) ≤ 0 ∧
    get_player_wrapped_core (honestPages ["X_1"]) 1 sampleFetch 0 "P" sampleDateFn =
      get_player_wrapped_core (honestPages ["X_1"]) 1 sampleFetch 1 "P" sampleDateFn ∧
    (get_player_wrapped_core (honestPages ["X_1"]) 1 sampleFetch 0 "P"
        sampleDateFn).matches_analyzed = 1 :=
  ⟨by decide,
   (c10_max_matches_clamped (honestPages ["X_1"]) 1 sampleFetch 0 "P" sampleDateFn
     (by decide)).1,
   by decide⟩

/-! ### Claim C4 -/

theorem waitPrecedes_make_request_from (responses : ℕ → HttpResp) (mr : ℕ) :
    ∀ fuel attempt,
      waitPrecedesRequests (make_request_from responses mr attempt fuel).1 = true := by
  intro fuel
  induction fuel with
  | zero => intro a; rfl
  | succ n ih =>
    intro a
    cases h : responses a with
    | ok b => simp [make_request_from, h, waitPrecedesRequests]
    | err s ra =>
      by_cases hs : s = 429
      · subst hs
        by_cases ha : a < mr - 1
        · simp [make_request_from, h, ha, waitPrecedesRequests, ih]
        · simp [make_request_from, h, ha, waitPrecedesRequests]
      · simp [make_request_from, h, hs, waitPrecedesRequests]

theorem countRequests_make_request_from (responses : ℕ → HttpResp) (mr : ℕ) :
    ∀ fuel attempt,
      countRequests (make_request_from responses mr attempt fuel).1 ≤ fuel := by
  intro fuel
  induction fuel with
  | zero => intro a; simp [make_request_from, countRequests]
  | succ n ih =>
    intro a
    cases h : responses a with
    | ok b => simp [make_request_from, h, countRequests]
    | err s ra =>
      by_cases hs : s = 429
      · subst hs
        by_cases ha : a < mr - 1
        · have hrec := ih (a + 1)
          simp only [countRequests] at hrec
          simp [make_request_from, h, ha, countRequests, List.countP_cons]
          omega
        · simp [make_request_from, h, ha, countRequests]
      · simp [make_request_from, h, hs, countRequests]

/-- C4: `_make_request` calls the rate limiter before every attempt
(including retries, first conjunct), makes at most 3 attempts (second), and
— by full case analysis on the first three upstream responses — returns on
a 2xx; fails immediately with no retry on a non-429 error; and on each 429
reads that response's `Retry-After` (default 2 when absent), sleeping that
delay before the first retry and `delay * 2^attempt` before the second
retry, finally re-raising the throttling error after the third 429. -/
theorem c4_retry_backoff (responses : ℕ → HttpResp) :
    waitPrecedesRequests (make_request responses).1 = true ∧
    countRequests (make_request responses).1 ≤ 3 ∧
    (∀ b, responses 0 = .ok b →
      make_request responses = ([.rlWait, .request 0], .success b)) ∧
    (∀ s ra, responses 0 = .err s ra → s ≠ 429 →
      make_request responses = ([.rlWait, .request 0], .httpError s)) ∧
    (∀ ra b, responses 0 = .err 429 ra → responses 1 = .ok b →
      make_request responses =
        ([.rlWait, .request 0, .sleepFor (ra.getD 2), .rlWait, .request 1],
         .success b)) ∧
    (∀ ra s ra1, responses 0 = .err 429 ra → responses 1 = .err s ra1 → s ≠ 429 →
      make_request responses =
        ([.rlWait, .request 0, .sleepFor (ra.getD 2), .rlWait, .request 1],
         .httpError s)) ∧
    (∀ ra ra1 b, responses 0 = .err 429 ra → responses 1 = .err 429 ra1 →
        responses 2 = .ok b →
      make_request responses =
        ([.rlWait, .request 0, .sleepFor (ra.getD 2), .rlWait, .request 1,
          .sleepFor (ra1.getD 2 * 2), .rlWait, .request 2], .success b)) ∧
    (∀ ra ra1 s ra2, responses 0 = .err 429 ra → responses 1 = .err 429 ra1 →
        responses 2 = .err s ra2 → s ≠ 429 →
      make_request responses =
        ([.rlWait, .request 0, .sleepFor (ra.getD 2), .rlWait, .request 1,
          .sleepFor (ra1.getD 2 * 2), .rlWait, .request 2], .httpError s)) ∧
    (∀ ra ra1 ra2, responses 0 = .err 429 ra → responses 1 = .err 429 ra1 →
        responses 2 = .err 429 ra2 →
      make_request responses =
        ([.rlWait, .request 0, .sleepFor (ra.getD 2), .rlWait, .request 1,
          .sleepFor (ra1.getD 2 * 2), .rlWait, .request 2], .throttled)) := by
  refine ⟨waitPrecedes_make_request_from responses 3 3 0,
    countRequests_make_request_from responses 3 3 0, ?_, ?_, ?_, ?_, ?_, ?_, ?_⟩
  · intro b h0
    simp [make_request, make_request_from, h0]
  · intro s ra h0 hs
    simp [make_request, make_request_from, h0, hs]
  · intro ra b h0 h1
    simp [make_request, make_request_from, h0, h1]
  · intro ra s ra1 h0 h1 hs
    simp [make_request, make_request_from, h0, h1, hs]
  · intro ra ra1 b h0 h1 h2
    simp [make_request, make_request_from, h0, h1, h2, pow_one]
  · intro ra ra1 s ra2 h0 h1 h2 hs
    simp [make_request, make_request_from, h0, h1, h2, hs, pow_one]
  · intro ra ra1 ra2 h0 h1 h2
    simp [make_request, make_request_from, h0, h1, h2, pow_one]

/-- An upstream that returns 429 without `Retry-After` on every attempt. -/
def resp429 : ℕ → HttpResp := fun _ => .err 429 none

/-- Witness for C4: three straight 429s — three rate-limited attempts,
backoff sleeps of 2 s then 4 s, throttling surfaced. -/
theorem c4_retry_backoff_witness :
    resp429 0 = .err 429 none ∧ resp429 1 = .err 429 none ∧
    resp429 2 = .err 429 none ∧
    make_request resp429 =
      ([.rlWait, .request 0, .sleepFor 2, .rlWait, .request 1, .sleepFor 4,
        .rlWait, .request 2], .throttled) :=
  ⟨rfl, rfl, rfl,
   (c4_retry_backoff resp429).2.2.2.2.2.2.2.2 none none none rfl rfl rfl⟩

/-! ### Claim C9 -/

theorem length_filter_lt_of_mem_not {p : ℚ → Bool} {l : List ℚ} {x : ℚ}
    (hx : x ∈ l) (hp : p x = false) : (l.filter p).length < l.length := by
  induction l with
  | nil => cases hx
  | cons a rest ih =>
    rcases List.mem_cons.mp hx with rfl | hmem
    · have hle := List.length_filter_le p rest
      simp only [List.filter_cons, hp, Bool.false_eq_true, if_false,
        List.length_cons]
      omega
    · cases hpa : p a
      · have hle := List.length_filter_le p rest
        simp only [List.filter_cons, hpa, Bool.false_eq_true, if_false,
          List.length_cons]
        omega
      · have hrec := ih hmem
        simp only [List.filter_cons, hpa, if_true, List.length_cons]
        omega

theorem headD_mem_of_ne_nil {l : List ℚ} (h : l ≠ []) : l.headD 0 ∈ l := by
  obtain ⟨a, t, rfl⟩ := List.exists_cons_of_ne_nil h
  simp

theorem pruneWindow_pos (ts : List ℚ) (now1 : ℚ)
    (h95 : 95 ≤ (pruneWindow now1 ts).length) :
    0 < 120 - (now1 - (pruneWindow now1 ts).headD 0) := by
  have hne : pruneWindow now1 ts ≠ [] := by
    intro hnil
    rw [hnil] at h95
    simp at h95
  have hmem := headD_mem_of_ne_nil hne
  have hpred := List.of_mem_filter hmem
  have hlt : now1 - (pruneWindow now1 ts).headD 0 < 120 := by simpa using hpred
  linarith

/-- C9: `_wait_for_rate_limit` first prunes timestamps older than 120 s; when
fewer than 95 remain it proceeds straight to the 1-second check over the
pruned list (conjunct 1); when at least 95 remain it requests a sleep of
exactly `120 - (now - oldest) + 0.1` — always positive — and re-prunes with
the refreshed clock before the 1-second check (conjunct 2); on a sorted
ledger the list head used as `oldest` really is the minimum (conjunct 3);
the 1-second phase sleeps `1.0 - (now - oldest_in_1s_window) + 0.05` exactly
when at least 19 retained timestamps lie within the last second (conjunct
4); the current timestamp is appended last (conjunct 5); and if the ledger
held at most 95 timestamps and the clock advanced by at least the requested
sleep, the final ledger again holds at most 95 entries (conjunct 6). -/
theorem c9_rate_limiter (ts : List ℚ) (now1 now2 tEnd : ℚ) :
    ((pruneWindow now1 ts).length < 95 →
      wait_for_rate_limit ts now1 now2 tEnd =
        { sleep2min := none
          sleep1s := (rlSecondPhase (pruneWindow now1 ts) now1 tEnd).1
          final := pruneWindow now1 ts ++ [tEnd] }) ∧
    (95 ≤ (pruneWindow now1 ts).length →
      wait_for_rate_limit ts now1 now2 tEnd =
        { sleep2min := some (120 - (now1 - (pruneWindow now1 ts).headD 0) + 1/10)
          sleep1s :=
            (rlSecondPhase (pruneWindow now2 (pruneWindow now1 ts)) now2 tEnd).1
          final := pruneWindow now2 (pruneWindow now1 ts) ++ [tEnd] } ∧
      0 < 120 - (now1 - (pruneWindow now1 ts).headD 0)) ∧
    (List.Sorted (· ≤ ·) ts →
      ∀ t ∈ pruneWindow now1 ts, (pruneWindow now1 ts).headD 0 ≤ t) ∧
    (∀ (cur : List ℚ) (now : ℚ),
      (rlSecondPhase cur now tEnd).1 =
        if 19 ≤ (cur.filter (fun t => now - t < 1)).length then
          some (1 - (now - (cur.filter (fun t => now - t < 1)).headD 0) + 1/20)
        else none) ∧
    ((wait_for_rate_limit ts now1 now2 tEnd).final.getLast? = some tEnd) ∧
    (ts.length ≤ 95 →
      (∀ d, (wait_for_rate_limit ts now1 now2 tEnd).sleep2min = some d →
        now1 + d ≤ now2) →
      (wait_for_rate_limit ts now1 now2 tEnd).final.length ≤ 95) := by
  have hprlen : (pruneWindow now1 ts).length ≤ ts.length :=
    List.length_filter_le _ ts
  refine ⟨?_, ?_, ?_, ?_, ?_, ?_⟩
  · intro hlt
    have hcond : ¬(95 ≤ (pruneWindow now1 ts).length ∧
        0 < 120 - (now1 - (pruneWindow now1 ts).headD 0)) := by
      intro hc
      omega
    unfold wait_for_rate_limit
    rw [if_neg hcond]
    rfl
  · intro h95
    have hpos := pruneWindow_pos ts now1 h95
    refine ⟨?_, hpos⟩
    unfold wait_for_rate_limit
    rw [if_pos ⟨h95, hpos⟩]
    rfl
  · intro hs t ht
    have hsf : List.Sorted (· ≤ ·) (pruneWindow now1 ts) := hs.filter _
    have hne : pruneWindow now1 ts ≠ [] := by
      intro hnil
      rw [hnil] at ht
      cases ht
    obtain ⟨a, rest, har⟩ := List.exists_cons_of_ne_nil hne
    rw [har] at hsf ht ⊢
    simp only [List.headD_cons]
    rcases List.mem_cons.mp ht with rfl | hmem
    · exact le_refl t
    · exact (List.sorted_cons.mp hsf).1 t hmem
  · intro cur now
    rfl
  · by_cases hc : 95 ≤ (pruneWindow now1 ts).length ∧
        0 < 120 - (now1 - (pruneWindow now1 ts).headD 0)
    · unfold wait_for_rate_limit
      rw [if_pos hc]
      show (pruneWindow now2 (pruneWindow now1 ts) ++ [tEnd]).getLast? = some tEnd
      exact List.getLast?_concat _
    · unfold wait_for_rate_limit
      rw [if_neg hc]
      show (pruneWindow now1 ts ++ [tEnd]).getLast? = some tEnd
      exact List.getLast?_concat _
  · intro hts hadv
    by_cases hc : 95 ≤ (pruneWindow now1 ts).length ∧
        0 < 120 - (now1 - (pruneWindow now1 ts).headD 0)
    · have heq : wait_for_rate_limit ts now1 now2 tEnd =
          { sleep2min := some (120 - (now1 - (pruneWindow now1 ts).headD 0) + 1/10)
            sleep1s :=
              (rlSecondPhase (pruneWindow now2 (pruneWindow now1 ts)) now2 tEnd).1
            final := pruneWindow now2 (pruneWindow now1 ts) ++ [tEnd] } := by
        unfold wait_for_rate_limit
        rw [if_pos hc]
        rfl
      rw [heq] at hadv ⊢
      have hd := hadv (120 - (now1 - (pruneWindow now1 ts).headD 0) + 1/10) rfl
      have hne : pruneWindow now1 ts ≠ [] := by
        intro hnil
        rw [hnil] at hc
        simp at hc
      have hmem := headD_mem_of_ne_nil hne
      have hfail : (fun t => decide (now2 - t < 120)) ((pruneWindow now1 ts).headD 0)
          = false := by
        simp only [decide_eq_false_iff_not, not_lt]
        linarith
      have hlt : (pruneWindow now2 (pruneWindow now1 ts)).length <
          (pruneWindow now1 ts).length :=
        @length_filter_lt_of_mem_not (fun t => decide (now2 - t < 120))
          (pruneWindow now1 ts) _ hmem hfail
      simp only [List.length_append, List.length_cons, List.length_nil]
      omega
    · have heq : wait_for_rate_limit ts now1 now2 tEnd =
          { sleep2min := none
            sleep1s := (rlSecondPhase (pruneWindow now1 ts) now1 tEnd).1
            final := pruneWindow now1 ts ++ [tEnd] } := by
        unfold wait_for_rate_limit
        rw [if_neg hc]
        rfl
      rw [heq]
      have hlt95 : (pruneWindow now1 ts).length < 95 := by
        by_contra hge
        exact hc ⟨le_of_not_lt hge, pruneWindow_pos ts now1 (le_of_not_lt hge)⟩
      simp only [List.length_append, List.length_cons, List.length_nil]
      omega

/-- 95 admissions all recorded at time 50. -/
def rlTs : List ℚ := List.replicate 95 50

/-- Witness for C9: a full 2-minute window (95 stamps at t=50, now=100, the
clock having advanced past the requested 70.1 s sleep on re-read) leaves the
final ledger within the 95-entry budget. -/
theorem c9_rate_limiter_witness :
    rlTs.length ≤ 95 ∧ List.Sorted (· ≤ ·) rlTs ∧
    (wait_for_rate_limit rlTs 100 171 172).final.length ≤ 95 := by
  have hpw : pruneWindow 100 rlTs = rlTs := by
    apply List.filter_eq_self.mpr
    intro x hx
    have hx50 : x = 50 := List.eq_of_mem_replicate hx
    subst hx50
    norm_num
  have hlen : rlTs.length ≤ 95 := by simp [rlTs]
  have hsorted : List.Sorted (· ≤ ·) rlTs := by
    apply List.pairwise_replicate.mpr
    simp
  refine ⟨hlen, hsorted, ?_⟩
  apply (c9_rate_limiter rlTs 100 171 172).2.2.2.2.2 hlen
  intro d hd
  have h95 : 95 ≤ (pruneWindow 100 rlTs).length := by
    rw [hpw]
    simp [rlTs]
  have heq := ((c9_rate_limiter rlTs 100 171 172).2.1 h95).1
  rw [heq] at hd
  simp only at hd
  have hhead : (pruneWindow 100 rlTs).headD 0 = 50 := by rw [hpw]; rfl
  rw [hhead] at hd
  have hdval : (120 : ℚ) - (100 - 50) + 1 / 10 = d := Option.some.inj hd
  rw [← hdval]
  norm_num

/-! ### Claim C2 -/

theorem findPlayer_eq_none (puuid : String) (ps : List Participant)
    (h : ∀ q ∈ ps, q.puuid ≠ puuid) : findPlayer puuid ps = none := by
  induction ps with
  | nil => rfl
  | cons q rest ih =>
    unfold findPlayer
    rw [if_neg (h q (List.mem_cons_self q rest))]
    exact ih (fun r hr => h r (List.mem_cons_of_mem q hr))

theorem processMatch_info_none (puuid : String) (dateFn : ℚ → DateParts)
    (st : AggState) (m : MatchRec) (h : m.info = none) :
    processMatch puuid dateFn st m = st := by
  unfold processMatch
  rw [h]

theorem processMatch_no_player (puuid : String) (dateFn : ℚ → DateParts)
    (st : AggState) (m : MatchRec) (info : MatchInfo) (h : m.info = some info)
    (hnp : ∀ q ∈ info.participants, q.puuid ≠ puuid) :
    processMatch puuid dateFn st m =
      { st with total_games := st.total_games + 1 } := by
  unfold processMatch
  rw [h]
  simp only [findPlayer_eq_none puuid info.participants hnp]

theorem processMatch_counts (puuid : String) (dateFn : ℚ → DateParts)
    (st : AggState) (m : MatchRec)
    (h : st.wins + st.losses ≤ st.total_games ∧ st.wins ≤ st.total_games) :
    (processMatch puuid dateFn st m).wins + (processMatch puuid dateFn st m).losses ≤
        (processMatch puuid dateFn st m).total_games ∧
      (processMatch puuid dateFn st m).wins ≤
        (processMatch puuid dateFn st m).total_games := by
  unfold processMatch
  rcases m with ⟨mid, minfo⟩
  cases minfo with
  | none => exact h
  | some info =>
    simp only
    cases hfp : findPlayer puuid info.participants with
    | none =>
      simp only [hfp]
      constructor <;> omega
    | some pd =>
      simp only [hfp]
      split_ifs <;> cases hw : pd.win <;> (try simp [hw]) <;> omega

theorem foldl_processMatch_counts (puuid : String) (dateFn : ℚ → DateParts)
    (ms : List MatchRec) :
    ∀ st : AggState,
      st.wins + st.losses ≤ st.total_games ∧ st.wins ≤ st.total_games →
      (ms.foldl (processMatch puuid dateFn) st).wins +
          (ms.foldl (processMatch puuid dateFn) st).losses ≤
          (ms.foldl (processMatch puuid dateFn) st).total_games ∧
        (ms.foldl (processMatch puuid dateFn) st).wins ≤
          (ms.foldl (processMatch puuid dateFn) st).total_games := by
  induction ms with
  | nil => intro st h; exact h
  | cons m rest ih =>
    intro st h
    exact ih _ (processMatch_counts puuid dateFn st m h)

/-- C2 counterexample: a match that *has* an `info` section but whose
participants do not contain the subject increments `total_games` (the
increment happens before the participant lookup) while `wins` and `losses`
stay 0 — so such a match does contribute to a counter and
`wins + losses == total_games` fails. -/
theorem c2_counterexample :
    (analyze_match_history [⟨some "LA1_1", some ⟨300, 0, []⟩⟩] "P"
        sampleDateFn).total_games = 1 ∧
    (analyze_match_history [⟨some "LA1_1", some ⟨300, 0, []⟩⟩] "P"
        sampleDateFn).wins +
      (analyze_match_history [⟨some "LA1_1", some ⟨300, 0, []⟩⟩] "P"
        sampleDateFn).losses = 0 := by
  decide

/-- C2 (amended): a match lacking an `info` section contributes to no
counter (conjunct 4); a match with an `info` section whose participants do
not contain the subject puuid increments `total_games` *only* (conjunct 5) —
hence for every match list `wins + losses ≤ total_games` (equality can
fail), and `0 ≤ winrate ≤ 100` still holds. -/
theorem c2_aggregator_invariants_amended (ms : List MatchRec) (puuid : String)
    (dateFn : ℚ → DateParts) :
    (analyze_match_history ms puuid dateFn).wins +
        (analyze_match_history ms puuid dateFn).losses ≤
      (analyze_match_history ms puuid dateFn).total_games ∧
    0 ≤ (analyze_match_history ms puuid dateFn).winrate ∧
    (analyze_match_history ms puuid dateFn).winrate ≤ 100 ∧
    (∀ (st : AggState) (m : MatchRec), m.info = none →
      processMatch puuid dateFn st m = st) ∧
    (∀ (st : AggState) (m : MatchRec) (info : MatchInfo), m.info = some info →
      (∀ q ∈ info.participants, q.puuid ≠ puuid) →
      processMatch puuid dateFn st m =
        { st with total_games := st.total_games + 1 }) := by
  have hcounts := foldl_processMatch_counts puuid dateFn ms initAggState
    (by constructor <;> simp [initAggState])
  have hwl : (analyze_match_history ms puuid dateFn).wins +
        (analyze_match_history ms puuid dateFn).losses ≤
      (analyze_match_history ms puuid dateFn).total_games := by
    show (ms.foldl (processMatch puuid dateFn) initAggState).wins +
        (ms.foldl (processMatch puuid dateFn) initAggState).losses ≤
      (ms.foldl (processMatch puuid dateFn) initAggState).total_games
    exact hcounts.1
  have hwr : 0 ≤ (analyze_match_history ms puuid dateFn).winrate ∧
      (analyze_match_history ms puuid dateFn).winrate ≤ 100 := by
    show (0 ≤ if 0 < (ms.foldl (processMatch puuid dateFn) initAggState).total_games
        then round2
          ((((ms.foldl (processMatch puuid dateFn) initAggState).wins : ℚ) /
            ((ms.foldl (processMatch puuid dateFn) initAggState).total_games : ℚ)) * 100)
        else 0) ∧
      ((if 0 < (ms.foldl (processMatch puuid dateFn) initAggState).total_games
        then round2
          ((((ms.foldl (processMatch puuid dateFn) initAggState).wins : ℚ) /
            ((ms.foldl (processMatch puuid dateFn) initAggState).total_games : ℚ)) * 100)
        else 0) ≤ 100)
    set st := ms.foldl (processMatch puuid dateFn) initAggState with hst
    split_ifs with hpos
    · have htq : (0 : ℚ) < (st.total_games : ℚ) := by exact_mod_cast hpos
      have hq1 : ((st.wins : ℚ) / (st.total_games : ℚ)) ≤ 1 := by
        rw [div_le_one htq]
        exact_mod_cast hcounts.2
      have hq0 : (0 : ℚ) ≤ (st.wins : ℚ) / (st.total_games : ℚ) := by positivity
      constructor
      · exact round2_nonneg (by positivity)
      · exact round2_le_100 (by linarith)
    · norm_num
  exact ⟨hwl, hwr.1, hwr.2,
    fun st m h => processMatch_info_none puuid dateFn st m h,
    fun st m info h hnp => processMatch_no_player puuid dateFn st m info h hnp⟩

/-- Witness for C2's amended statement: a match with no `info` is a no-op on
the accumulator, and a one-participant match not featuring the subject only
bumps `total_games`. -/
theorem c2_aggregator_invariants_amended_witness :
    (⟨some "X", none⟩ : MatchRec).info = none ∧
    processMatch "P" sampleDateFn initAggState ⟨some "X", none⟩ = initAggState ∧
    (⟨some "Y", some ⟨300, 0, []⟩⟩ : MatchRec).info = some ⟨300, 0, []⟩ ∧
    processMatch "P" sampleDateFn initAggState ⟨some "Y", some ⟨300, 0, []⟩⟩ =
      { initAggState with total_games := initAggState.total_games + 1 } :=
  ⟨rfl,
   (c2_aggregator_invariants_amended [] "P" sampleDateFn).2.2.2.1 initAggState
     ⟨some "X", none⟩ rfl,
   rfl,
   (c2_aggregator_invariants_amended [] "P" sampleDateFn).2.2.2.2 initAggState
     ⟨some "Y", some ⟨300, 0, []⟩⟩ ⟨300, 0, []⟩ rfl (by simp)⟩

/-! ### Claim C6 -/

theorem processMatch_best_worst (puuid : String) (dateFn : ℚ → DateParts)
    (st : AggState) (mid : String) (dur : ℕ) (cr : ℤ) (p : Participant)
    (hp : p.puuid = puuid) :
    ((processMatch puuid dateFn st ⟨some mid, some ⟨dur, cr, [p]⟩⟩).best_game =
      if st.best_kda < calculate_kda p.kills p.deaths p.assists then
        some ⟨some mid, p.championName, calculate_kda p.kills p.deaths p.assists,
          p.kills, p.deaths, p.assists, p.win, some p.totalDamageDealtToChampions⟩
      else st.best_game) ∧
    ((processMatch puuid dateFn st ⟨some mid, some ⟨dur, cr, [p]⟩⟩).best_kda =
      if st.best_kda < calculate_kda p.kills p.deaths p.assists then
        calculate_kda p.kills p.deaths p.assists
      else st.best_kda) ∧
    ((processMatch puuid dateFn st ⟨some mid, some ⟨dur, cr, [p]⟩⟩).worst_game =
      if ltWorstKda (calculate_kda p.kills p.deaths p.assists) st.worst_kda then
        some ⟨some mid, p.championName, calculate_kda p.kills p.deaths p.assists,
          p.kills, p.deaths, p.assists, p.win, none⟩
      else st.worst_game) ∧
    ((processMatch puuid dateFn st ⟨some mid, some ⟨dur, cr, [p]⟩⟩).worst_kda =
      if ltWorstKda (calculate_kda p.kills p.deaths p.assists) st.worst_kda then
        some (calculate_kda p.kills p.deaths p.assists)
      else st.worst_kda) := by
  have hfp : findPlayer puuid [p] = some p := by
    simp [findPlayer, hp]
  unfold processMatch
  simp only [hfp]
  refine ⟨?_, ?_, ?_, ?_⟩ <;>
    simp only [apply_ite AggState.best_game, apply_ite AggState.best_kda,
      apply_ite AggState.worst_game, apply_ite AggState.worst_kda, ite_self]

theorem analyze_two_best_worst (puuid : String) (dateFn : ℚ → DateParts)
    (id1 id2 : String) (d1 d2 : ℕ) (c1 c2 : ℤ) (q1 q2 : Participant)
    (h1 : q1.puuid = puuid) (h2 : q2.puuid = puuid) :
    ((analyze_match_history [⟨some id1, some ⟨d1, c1, [q1]⟩⟩,
        ⟨some id2, some ⟨d2, c2, [q2]⟩⟩] puuid dateFn).best_game =
      if calculate_kda q1.kills q1.deaths q1.assists <
          calculate_kda q2.kills q2.deaths q2.assists then
        some ⟨some id2, q2.championName, calculate_kda q2.kills q2.deaths q2.assists,
          q2.kills, q2.deaths, q2.assists, q2.win, some q2.totalDamageDealtToChampions⟩
      else
        some ⟨some id1, q1.championName, calculate_kda q1.kills q1.deaths q1.assists,
          q1.kills, q1.deaths, q1.assists, q1.win, some q1.totalDamageDealtToChampions⟩) ∧
    ((analyze_match_history [⟨some id1, some ⟨d1, c1, [q1]⟩⟩,
        ⟨some id2, some ⟨d2, c2, [q2]⟩⟩] puuid dateFn).worst_game =
      if calculate_kda q2.kills q2.deaths q2.assists <
          calculate_kda q1.kills q1.deaths q1.assists then
        some ⟨some id2, q2.championName, calculate_kda q2.kills q2.deaths q2.assists,
          q2.kills, q2.deaths, q2.assists, q2.win, none⟩
      else
        some ⟨some id1, q1.championName, calculate_kda q1.kills q1.deaths q1.assists,
          q1.kills, q1.deaths, q1.assists, q1.win, none⟩) := by
  have e1 := processMatch_best_worst puuid dateFn initAggState id1 d1 c1 q1 h1
  have hbk1 : (processMatch puuid dateFn initAggState
      ⟨some id1, some ⟨d1, c1, [q1]⟩⟩).best_kda =
      calculate_kda q1.kills q1.deaths q1.assists := by
    rw [e1.2.1]
    rw [if_pos]
    show initAggState.best_kda < _
    calc initAggState.best_kda = -1 := rfl
      _ < 0 := by norm_num
      _ ≤ _ := calculate_kda_nonneg q1.kills q1.deaths q1.assists
  have hbg1 : (processMatch puuid dateFn initAggState
      ⟨some id1, some ⟨d1, c1, [q1]⟩⟩).best_game =
      some ⟨some id1, q1.championName, calculate_kda q1.kills q1.deaths q1.assists,
        q1.kills, q1.deaths, q1.assists, q1.win,
        some q1.totalDamageDealtToChampions⟩ := by
    rw [e1.1]
    rw [if_pos]
    show initAggState.best_kda < _
    calc initAggState.best_kda = -1 := rfl
      _ < 0 := by norm_num
      _ ≤ _ := calculate_kda_nonneg q1.kills q1.deaths q1.assists
  have hwk1 : (processMatch puuid dateFn initAggState
      ⟨some id1, some ⟨d1, c1, [q1]⟩⟩).worst_kda =
      some (calculate_kda q1.kills q1.deaths q1.assists) := by
    rw [e1.2.2.2]
    rfl
  have hwg1 : (processMatch puuid dateFn initAggState
      ⟨some id1, some ⟨d1, c1, [q1]⟩⟩).worst_game =
      some ⟨some id1, q1.championName, calculate_kda q1.kills q1.deaths q1.assists,
        q1.kills, q1.deaths, q1.assists, q1.win, none⟩ := by
    rw [e1.2.2.1]
    rfl
  have e2 := processMatch_best_worst puuid dateFn
    (processMatch puuid dateFn initAggState ⟨some id1, some ⟨d1, c1, [q1]⟩⟩)
    id2 d2 c2 q2 h2
  constructor
  · show (processMatch puuid dateFn
        (processMatch puuid dateFn initAggState ⟨some id1, some ⟨d1, c1, [q1]⟩⟩)
        ⟨some id2, some ⟨d2, c2, [q2]⟩⟩).best_game = _
    rw [e2.1, hbk1, hbg1]
  · show (processMatch puuid dateFn
        (processMatch puuid dateFn initAggState ⟨some id1, some ⟨d1, c1, [q1]⟩⟩)
        ⟨some id2, some ⟨d2, c2, [q2]⟩⟩).worst_game = _
    rw [e2.2.2.1, hwk1, hwg1]
    simp only [ltWorstKda, decide_eq_true_eq]

/-- C6: best/worst-game selection uses strict comparison against running
extremes seeded by the first processed match: over two matches the later one
becomes `best_game` exactly when its KDA is strictly greater and
`worst_game` exactly when strictly less (conjuncts 1–2), so on an exact KDA
tie the first-seen match wins — `[A, B]` selects A as best while `[B, A]`
selects B (conjunct 3). -/
theorem c6_best_worst_strict_tie_break (puuid : String) (dateFn : ℚ → DateParts)
    (idA idB : String) (dA dB : ℕ) (cA cB : ℤ) (pa pb : Participant)
    (ha : pa.puuid = puuid) (hb : pb.puuid = puuid) :
    ((analyze_match_history [⟨some idA, some ⟨dA, cA, [pa]⟩⟩,
        ⟨some idB, some ⟨dB, cB, [pb]⟩⟩] puuid dateFn).best_game =
      if calculate_kda pa.kills pa.deaths pa.assists <
          calculate_kda pb.kills pb.deaths pb.assists then
        some ⟨some idB, pb.championName, calculate_kda pb.kills pb.deaths pb.assists,
          pb.kills, pb.deaths, pb.assists, pb.win, some pb.totalDamageDealtToChampions⟩
      else
        some ⟨some idA, pa.championName, calculate_kda pa.kills pa.deaths pa.assists,
          pa.kills, pa.deaths, pa.assists, pa.win, some pa.totalDamageDealtToChampions⟩) ∧
    ((analyze_match_history [⟨some idA, some ⟨dA, cA, [pa]⟩⟩,
        ⟨some idB, some ⟨dB, cB, [pb]⟩⟩] puuid dateFn).worst_game =
      if calculate_kda pb.kills pb.deaths pb.assists <
          calculate_kda pa.kills pa.deaths pa.assists then
        some ⟨some idB, pb.championName, calculate_kda pb.kills pb.deaths pb.assists,
          pb.kills, pb.deaths, pb.assists, pb.win, none⟩
      else
        some ⟨some idA, pa.championName, calculate_kda pa.kills pa.deaths pa.assists,
          pa.kills, pa.deaths, pa.assists, pa.win, none⟩) ∧
    (calculate_kda pa.kills pa.deaths pa.assists =
        calculate_kda pb.kills pb.deaths pb.assists →
      ((analyze_match_history [⟨some idA, some ⟨dA, cA, [pa]⟩⟩,
          ⟨some idB, some ⟨dB, cB, [pb]⟩⟩] puuid dateFn).best_game.map
          GameSummary.match_id = some (some idA) ∧
        (analyze_match_history [⟨some idB, some ⟨dB, cB, [pb]⟩⟩,
          ⟨some idA, some ⟨dA, cA, [pa]⟩⟩] puuid dateFn).best_game.map
          GameSummary.match_id = some (some idB))) := by
  have hAB := analyze_two_best_worst puuid dateFn idA idB dA dB cA cB pa pb ha hb
  have hBA := analyze_two_best_worst puuid dateFn idB idA dB dA cB cA pb pa hb ha
  refine ⟨hAB.1, hAB.2, ?_⟩
  intro heq
  constructor
  · rw [hAB.1, if_neg (by rw [heq]; exact lt_irrefl _)]
    rfl
  · rw [hBA.1, if_neg (by rw [heq]; exact lt_irrefl _)]
    rfl

/-- Witness for C6: two participants of the subject with the same KDA 2.0
(2/2/2 and 4/4/4); feeding `[A, B]` makes A the best game, `[B, A]` makes B
the best game. -/
theorem c6_best_worst_strict_tie_break_witness :
    samplePlayerA.puuid = "P" ∧ samplePlayerB.puuid = "P" ∧
    calculate_kda samplePlayerA.kills samplePlayerA.deaths samplePlayerA.assists =
      calculate_kda samplePlayerB.kills samplePlayerB.deaths samplePlayerB.assists ∧
    (analyze_match_history [⟨some "A", some ⟨300, 0, [samplePlayerA]⟩⟩,
        ⟨some "B", some ⟨300, 0, [samplePlayerB]⟩⟩] "P" sampleDateFn).best_game.map
        GameSummary.match_id = some (some "A") ∧
    (analyze_match_history [⟨some "B", some ⟨300, 0, [samplePlayerB]⟩⟩,
        ⟨some "A", some ⟨300, 0, [samplePlayerA]⟩⟩] "P" sampleDateFn).best_game.map
        GameSummary.match_id = some (some "B") := by
  have hkda : calculate_kda samplePlayerA.kills samplePlayerA.deaths
      samplePlayerA.assists =
      calculate_kda samplePlayerB.kills samplePlayerB.deaths
        samplePlayerB.assists := by
    show calculate_kda 2 2 2 = calculate_kda 4 4 4
    norm_num [calculate_kda, round2, roundHalfEven]
  have h := (c6_best_worst_strict_tie_break "P" sampleDateFn "A" "B" 300 300 0 0
    samplePlayerA samplePlayerB rfl rfl).2.2 hkda
  exact ⟨rfl, rfl, hkda, h.1, h.2⟩

/-! ### Claim C5 -/

theorem bestRateFold_skip {α γ : Type} (eligible : γ → Bool) (rateOf : γ → ℚ)
    (l : List (α × γ)) :
    ∀ acc, (∀ p ∈ l, eligible p.2 = false) →
      bestRateFold eligible rateOf l acc = acc := by
  induction l with
  | nil => intro acc _; rfl
  | cons p rest ih =>
    intro acc h
    have hp : eligible p.2 = false := h p (List.mem_cons_self p rest)
    have hstep : bestRateFold eligible rateOf (p :: rest) acc =
        bestRateFold eligible rateOf rest acc := by
      simp [bestRateFold, hp]
    rw [hstep]
    exact ih acc (fun q hq => h q (List.mem_cons_of_mem p hq))

theorem bestRateFold_spec {α γ : Type} (eligible : γ → Bool) (rateOf : γ → ℚ)
    (l : List (α × γ)) :
    ∀ acc : Option α × ℚ,
      acc.2 ≤ (bestRateFold eligible rateOf l acc).2 ∧
      (∀ k g, (k, g) ∈ l → eligible g = true →
        rateOf g ≤ (bestRateFold eligible rateOf l acc).2) ∧
      (bestRateFold eligible rateOf l acc = acc ∨
        ∃ k g, (k, g) ∈ l ∧ eligible g = true ∧
          (bestRateFold eligible rateOf l acc).1 = some k ∧
          (bestRateFold eligible rateOf l acc).2 = rateOf g ∧
          acc.2 < (bestRateFold eligible rateOf l acc).2) := by
  induction l with
  | nil =>
    intro acc
    refine ⟨le_refl _, ?_, Or.inl rfl⟩
    intro k g hkg
    cases hkg
  | cons p rest ih =>
    intro acc
    by_cases he : eligible p.2 = true
    · by_cases hlt : acc.2 < rateOf p.2
      · have hstep : bestRateFold eligible rateOf (p :: rest) acc =
            bestRateFold eligible rateOf rest (some p.1, rateOf p.2) := by
          simp [bestRateFold, he, hlt]
        obtain ⟨ih1, ih2, ih3⟩ := ih (some p.1, rateOf p.2)
        have ih1' : rateOf p.2 ≤
            (bestRateFold eligible rateOf rest (some p.1, rateOf p.2)).2 := ih1
        rw [hstep]
        refine ⟨le_trans (le_of_lt hlt) ih1', ?_, ?_⟩
        · intro k g hkg hg
          rcases List.mem_cons.mp hkg with heq | hmem
          · have hgp : g = p.2 := congrArg Prod.snd heq
            rw [hgp]
            exact ih1'
          · exact ih2 k g hmem hg
        · rcases ih3 with hsame | ⟨k, g, hm, hg, r1, r2, r3⟩
          · refine Or.inr ⟨p.1, p.2, List.mem_cons_self p rest, he, ?_, ?_, ?_⟩
            · rw [hsame]
            · rw [hsame]
            · rw [hsame]
              exact hlt
          · refine Or.inr ⟨k, g, List.mem_cons_of_mem p hm, hg, r1, r2, ?_⟩
            exact lt_trans hlt r3
      · have hstep : bestRateFold eligible rateOf (p :: rest) acc =
            bestRateFold eligible rateOf rest acc := by
          simp [bestRateFold, he, hlt]
        obtain ⟨ih1, ih2, ih3⟩ := ih acc
        rw [hstep]
        refine ⟨ih1, ?_, ?_⟩
        · intro k g hkg hg
          rcases List.mem_cons.mp hkg with heq | hmem
          · have hgp : g = p.2 := congrArg Prod.snd heq
            rw [hgp]
            exact le_trans (le_of_not_lt hlt) ih1
          · exact ih2 k g hmem hg
        · rcases ih3 with hsame | ⟨k, g, hm, hg, r1, r2, r3⟩
          · exact Or.inl hsame
          · exact Or.inr ⟨k, g, List.mem_cons_of_mem p hm, hg, r1, r2, r3⟩
    · have hstep : bestRateFold eligible rateOf (p :: rest) acc =
          bestRateFold eligible rateOf rest acc := by
        simp [bestRateFold, he]
      obtain ⟨ih1, ih2, ih3⟩ := ih acc
      rw [hstep]
      refine ⟨ih1, ?_, ?_⟩
      · intro k g hkg hg
        rcases List.mem_cons.mp hkg with heq | hmem
        · have hgp : g = p.2 := congrArg Prod.snd heq
          rw [hgp] at hg
          exact absurd hg he
        · exact ih2 k g hmem hg
      · rcases ih3 with hsame | ⟨k, g, hm, hg, r1, r2, r3⟩
        · exact Or.inl hsame
        · exact Or.inr ⟨k, g, List.mem_cons_of_mem p hm, hg, r1, r2, r3⟩

theorem weekdayFold_step_pair (a : WeekdayAcc) (p : ℕ × HWAgg) :
    ((weekdayFold [p] a).bestDay, (weekdayFold [p] a).bestWr) =
      bestRateFold (fun g => 5 ≤ g.games) dayWinrate [p] (a.bestDay, a.bestWr) := by
  by_cases hm : a.maxGames < p.2.games <;> by_cases he : 5 ≤ p.2.games <;>
    by_cases hlt : a.bestWr < dayWinrate p.2 <;>
    simp [weekdayFold, bestRateFold, hm, he, hlt]

theorem weekdayFold_proj (l : List (ℕ × HWAgg)) :
    ∀ acc : WeekdayAcc,
      ((weekdayFold l acc).bestDay, (weekdayFold l acc).bestWr) =
        bestRateFold (fun g => 5 ≤ g.games) dayWinrate l
          (acc.bestDay, acc.bestWr) := by
  induction l with
  | nil => intro acc; rfl
  | cons p rest ih =>
    intro acc
    have h1 : weekdayFold (p :: rest) acc = weekdayFold rest (weekdayFold [p] acc) :=
      rfl
    have h2 : bestRateFold (fun g => 5 ≤ g.games) dayWinrate (p :: rest)
        (acc.bestDay, acc.bestWr) =
        bestRateFold (fun g => 5 ≤ g.games) dayWinrate rest
          (bestRateFold (fun g => 5 ≤ g.games) dayWinrate [p]
            (acc.bestDay, acc.bestWr)) := rfl
    rw [h1, h2, ← weekdayFold_step_pair acc p]
    exact ih (weekdayFold [p] acc)

/-- C5 counterexample: a single month with 5 games and 0 wins is eligible
(`games ≥ 5`), so by the claim it is the period with the highest win rate
and must be reported — but the code's running best starts at 0 with a strict
`>`, so a 0% winrate never wins and `best_winrate_month` is `None`. -/
theorem c5_counterexample :
    (analyze_temporal_patterns [("2025-01", ⟨5, 0, 0, 0, 0, 0, 0, 0⟩)] []
        []).best_winrate_month = none ∧
    (5 : ℕ) ≤ (⟨5, 0, 0, 0, 0, 0, 0, 0⟩ : MonthAgg).games := by
  constructor
  · simp [analyze_temporal_patterns, bestRateFold, monthWinrate]
  · decide

/-- C5 (amended): `best_winrate_month` / `best_winrate_weekday` are the
eligible (`games ≥ 5`) period of highest win rate *provided that rate is
strictly positive*: they are null when every period has fewer than 5 games
(conjuncts 1–2), a reported winner is an eligible period with a positive,
maximal win rate (conjuncts 3–4), and an eligible period with at least one
win guarantees the superlative is not null (conjuncts 5–6).  An eligible
period whose win rate is 0 is never selected (strict `>` against an initial
best of 0). -/
theorem c5_superlatives_amended (monthly : List (String × MonthAgg))
    (hourly weekday : List (ℕ × HWAgg)) :
    ((∀ p ∈ monthly, p.2.games < 5) →
      (analyze_temporal_patterns monthly hourly weekday).best_winrate_month =
        none) ∧
    ((∀ p ∈ weekday, p.2.games < 5) →
      (analyze_temporal_patterns monthly hourly weekday).best_winrate_weekday =
        none) ∧
    (∀ h, (analyze_temporal_patterns monthly hourly weekday).best_winrate_month =
        some h →
      ∃ k g, (k, g) ∈ monthly ∧ 5 ≤ g.games ∧ 0 < monthWinrate g ∧
        h.month = formatMonthName k ∧ h.winrate = round2 (monthWinrate g) ∧
        ∀ k2 g2, (k2, g2) ∈ monthly → 5 ≤ g2.games →
          monthWinrate g2 ≤ monthWinrate g) ∧
    (∀ h, (analyze_temporal_patterns monthly hourly weekday).best_winrate_weekday =
        some h →
      ∃ d g, (d, g) ∈ weekday ∧ 5 ≤ g.games ∧ 0 < dayWinrate g ∧
        h.day = weekdayNames d ∧ h.winrate = round2 (dayWinrate g) ∧
        ∀ d2 g2, (d2, g2) ∈ weekday → 5 ≤ g2.games →
          dayWinrate g2 ≤ dayWinrate g) ∧
    (∀ k g, (k, g) ∈ monthly → 5 ≤ g.games → 0 < g.wins →
      (analyze_temporal_patterns monthly hourly weekday).best_winrate_month ≠
        none) ∧
    (∀ d g, (d, g) ∈ weekday → 5 ≤ g.games → 0 < g.wins →
      (analyze_temporal_patterns monthly hourly weekday).best_winrate_weekday ≠
        none) := by
  have hmonth : (analyze_temporal_patterns monthly hourly weekday).best_winrate_month =
      (match (bestRateFold (fun g => 5 ≤ g.games) monthWinrate monthly
          ((none : Option String), (0 : ℚ))).1 with
       | none => none
       | some k => some ⟨formatMonthName k,
           round2 (bestRateFold (fun g => 5 ≤ g.games) monthWinrate monthly
             ((none : Option String), (0 : ℚ))).2⟩) := rfl
  have hweekpair := weekdayFold_proj weekday ⟨none, 0, none, 0⟩
  have hwd : (weekdayFold weekday ⟨none, 0, none, 0⟩).bestDay =
      (bestRateFold (fun g => 5 ≤ g.games) dayWinrate weekday
        ((none : Option ℕ), (0 : ℚ))).1 := congrArg Prod.fst hweekpair
  have hww : (weekdayFold weekday ⟨none, 0, none, 0⟩).bestWr =
      (bestRateFold (fun g => 5 ≤ g.games) dayWinrate weekday
        ((none : Option ℕ), (0 : ℚ))).2 := congrArg Prod.snd hweekpair
  have hweek : (analyze_temporal_patterns monthly hourly weekday).best_winrate_weekday =
      (match (bestRateFold (fun g => 5 ≤ g.games) dayWinrate weekday
          ((none : Option ℕ), (0 : ℚ))).1 with
       | none => none
       | some d => some ⟨weekdayNames d,
           round2 (bestRateFold (fun g => 5 ≤ g.games) dayWinrate weekday
             ((none : Option ℕ), (0 : ℚ))).2⟩) := by
    rw [show (analyze_temporal_patterns monthly hourly weekday).best_winrate_weekday =
        (match (weekdayFold weekday ⟨none, 0, none, 0⟩).bestDay with
         | none => none
         | some d => some ⟨weekdayNames d,
             round2 (weekdayFold weekday ⟨none, 0, none, 0⟩).bestWr⟩) from rfl]
    rw [hwd, hww]
  obtain ⟨sm1, sm2, sm3⟩ := bestRateFold_spec (fun g => 5 ≤ g.games) monthWinrate
    monthly ((none : Option String), (0 : ℚ))
  obtain ⟨sw1, sw2, sw3⟩ := bestRateFold_spec (fun g => 5 ≤ g.games) dayWinrate
    weekday ((none : Option ℕ), (0 : ℚ))
  refine ⟨?_, ?_, ?_, ?_, ?_, ?_⟩
  · intro hall
    have hz : bestRateFold (fun g => 5 ≤ g.games) monthWinrate monthly
        ((none : Option String), (0 : ℚ)) = (none, 0) :=
      bestRateFold_skip _ _ monthly (none, 0) (fun p hp => by
        show decide (5 ≤ p.2.games) = false
        simpa using Nat.not_le.mpr (hall p hp))
    rw [hmonth, hz]
  · intro hall
    have hz : bestRateFold (fun g => 5 ≤ g.games) dayWinrate weekday
        ((none : Option ℕ), (0 : ℚ)) = (none, 0) :=
      bestRateFold_skip _ _ weekday (none, 0) (fun p hp => by
        show decide (5 ≤ p.2.games) = false
        simpa using Nat.not_le.mpr (hall p hp))
    rw [hweek, hz]
  · intro h hsome
    rw [hmonth] at hsome
    cases hR : (bestRateFold (fun g => 5 ≤ g.games) monthWinrate monthly
        ((none : Option String), (0 : ℚ))).1 with
    | none => rw [hR] at hsome; simp at hsome
    | some k =>
      rw [hR] at hsome
      have hh := Option.some.inj hsome
      rcases sm3 with hsame | ⟨k2, g, hm, hg, r1, r2, r3⟩
      · rw [hsame] at hR; simp at hR
      · have hk : k2 = k := by
          rw [r1] at hR
          exact Option.some.inj hR
        subst hk
        refine ⟨k2, g, hm, by simpa using hg, ?_, ?_, ?_, ?_⟩
        · have h0 : (0 : ℚ) <
              (bestRateFold (fun g => 5 ≤ g.games) monthWinrate monthly
                ((none : Option String), (0 : ℚ))).2 := r3
          rw [r2] at h0
          exact h0
        · rw [← hh]
        · rw [← hh]
          show round2 (bestRateFold (fun g => 5 ≤ g.games) monthWinrate monthly
            ((none : Option String), (0 : ℚ))).2 = round2 (monthWinrate g)
          rw [r2]
        · intro k3 g3 hm3 hg3
          have hle := sm2 k3 g3 hm3 (by simpa using hg3)
          rw [r2] at hle
          exact hle
  · intro h hsome
    rw [hweek] at hsome
    cases hR : (bestRateFold (fun g => 5 ≤ g.games) dayWinrate weekday
        ((none : Option ℕ), (0 : ℚ))).1 with
    | none => rw [hR] at hsome; simp at hsome
    | some d =>
      rw [hR] at hsome
      have hh := Option.some.inj hsome
      rcases sw3 with hsame | ⟨d2, g, hm, hg, r1, r2, r3⟩
      · rw [hsame] at hR; simp at hR
      · have hk : d2 = d := by
          rw [r1] at hR
          exact Option.some.inj hR
        subst hk
        refine ⟨d2, g, hm, by simpa using hg, ?_, ?_, ?_, ?_⟩
        · have h0 : (0 : ℚ) <
              (bestRateFold (fun g => 5 ≤ g.games) dayWinrate weekday
                ((none : Option ℕ), (0 : ℚ))).2 := r3
          rw [r2] at h0
          exact h0
        · rw [← hh]
        · rw [← hh]
          show round2 (bestRateFold (fun g => 5 ≤ g.games) dayWinrate weekday
            ((none : Option ℕ), (0 : ℚ))).2 = round2 (dayWinrate g)
          rw [r2]
        · intro d3 g3 hm3 hg3
          have hle := sw2 d3 g3 hm3 (by simpa using hg3)
          rw [r2] at hle
          exact hle
  · intro k g hm hg hw hnone
    have hpos : 0 < monthWinrate g := by
      unfold monthWinrate
      have hg0 : (0 : ℚ) < (g.games : ℚ) := by
        exact_mod_cast lt_of_lt_of_le (by norm_num) hg
      have hw0 : (0 : ℚ) < (g.wins : ℚ) := by exact_mod_cast hw
      have := div_pos hw0 hg0
      nlinarith
    rw [hmonth] at hnone
    cases hR : (bestRateFold (fun g => 5 ≤ g.games) monthWinrate monthly
        ((none : Option String), (0 : ℚ))).1 with
    | none =>
      rcases sm3 with hsame | ⟨k2, g2, _, _, r1, _, _⟩
      · have hle := sm2 k g hm (by simpa using hg)
        rw [hsame] at hle
        have hle0 : monthWinrate g ≤ 0 := hle
        linarith
      · rw [hR] at r1
        cases r1
    | some k1 => rw [hR] at hnone; simp at hnone
  · intro d g hm hg hw hnone
    have hpos : 0 < dayWinrate g := by
      unfold dayWinrate
      have hg0 : (0 : ℚ) < (g.games : ℚ) := by
        exact_mod_cast lt_of_lt_of_le (by norm_num) hg
      have hw0 : (0 : ℚ) < (g.wins : ℚ) := by exact_mod_cast hw
      have := div_pos hw0 hg0
      nlinarith
    rw [hweek] at hnone
    cases hR : (bestRateFold (fun g => 5 ≤ g.games) dayWinrate weekday
        ((none : Option ℕ), (0 : ℚ))).1 with
    | none =>
      rcases sw3 with hsame | ⟨d2, g2, _, _, r1, _, _⟩
      · have hle := sw2 d g hm (by simpa using hg)
        rw [hsame] at hle
        have hle0 : dayWinrate g ≤ 0 := hle
        linarith
      · rw [hR] at r1
        cases r1
    | some d1 => rw [hR] at hnone; simp at hnone

/-- Witness for C5's amended statement at the spec's February scenario: a
6-game, 5-win month is eligible and winning, so the superlative is present. -/
theorem c5_superlatives_amended_witness :
    (("2025-02", (⟨6, 5, 1, 1, 1, 0, 0, 0⟩ : MonthAgg)) ∈
        [("2025-02", (⟨6, 5, 1, 1, 1, 0, 0, 0⟩ : MonthAgg))]) ∧
    5 ≤ (⟨6, 5, 1, 1, 1, 0, 0, 0⟩ : MonthAgg).games ∧
    0 < (⟨6, 5, 1, 1, 1, 0, 0, 0⟩ : MonthAgg).wins ∧
    (analyze_temporal_patterns [("2025-02", ⟨6, 5, 1, 1, 1, 0, 0, 0⟩)] []
        []).best_winrate_month ≠ none :=
  ⟨List.mem_cons_self _ _, by decide, by decide,
   (c5_superlatives_amended [("2025-02", ⟨6, 5, 1, 1, 1, 0, 0, 0⟩)] []
       []).2.2.2.2.1 "2025-02" ⟨6, 5, 1, 1, 1, 0, 0, 0⟩
     (List.mem_cons_self _ _) (by decide) (by decide)⟩
